import Mathlib

/-!
Verification of the OMF (Object Module Format) parser core.

This file shallowly embeds the parts of the `omf_parser` Python package that
the verified properties talk about:

* `scanner.py`  — Phase 1 record enumeration (`Scanner.scan`, `_read_record`,
  `_validate_checksum`, `_detect_features`, `_track_module_boundaries`,
  `_finalize_module`);
* `variant.py`  — the `Variant` class hierarchy (TIS / PharLap / IBM) and its
  field-size methods;
* `parsing.py`  — the `RecordParser` cursor (byte reads, OMF index fields,
  length-preceded names, variable-length integers);
* `file.py`     — Phase 2 dispatch (`OMFFile._parse_record`, `parse`) over the
  record handlers relevant here;
* `records/theadr.py`, `records/extdef.py`, `records/comdef.py`,
  `records/lidata.py`, `records/segdef.py`, `models.py` — individual record
  decoders and the LIDATA expanded-size computation;
* `detect.py`   — `detect_omf` confidence scoring and `_validate_record_chain`.

Conventions of the embedding:

* Python `bytes` values are `List Nat`; where an arithmetic fact needs the
  guarantee that entries are real bytes, theorems take a `ByteSeq` hypothesis.
* Fallible Python code is `Except PyErr _`; `PyErr` names the Python exception
  class that would be raised.  Functions that cannot raise are pure.
* Python `float` confidences (multiples of 0.05 between 0 and 1) are scaled by
  100 to `Nat`.  At every reachable accumulated value the binary64 comparison
  against 0.5 agrees with the scaled integer comparison against 50 (in
  particular 0.3 + 0.1 + 0.1 is exactly 0.5 in binary64), so the scaling is
  observationally faithful for the detection decision.
* Loops carry an explicit fuel argument; every loop in the source consumes at
  least one input byte per iteration (or decrements a Python counter), and
  call sites pass fuel strictly larger than the available bytes (or the
  counter), so the fuel-exhaustion branches are unreachable.
-/

set_option linter.unusedVariables false

/-- Python exception classes that the embedded code can raise. -/
inductive PyErr where
  | attributeError
  | valueError
  | validationError
  deriving DecidableEq, Repr

/-- The `OMFVariant` `StrEnum` of `constants.py`. -/
inductive OMFVariant where
  | tisStandard
  | pharlap
  | ibmLink386
  deriving DecidableEq, Repr

/-- The `Variant` class hierarchy of `variant.py`: the base class is the TIS
Standard variant, and `PharLapVariant` / `IBMVariant` override some methods.
The three singleton instances `TIS_STANDARD`, `PHARLAP`, `IBM_LINK386` are the
three constructors. -/
inductive Variant where
  | tisStandard
  | pharLap
  | ibmLink386
  deriving DecidableEq, Repr

/-- `Variant.offset_field_size`: TIS returns 4 bytes for 32-bit records and
2 bytes otherwise; PharLap always returns 4; IBM inherits the TIS method. -/
def Variant.offset_field_size (v : Variant) (is_32bit : Bool) : Nat :=
  match v with
  | .pharLap => 4
  | _ => if is_32bit then 4 else 2

/-- `Variant.lidata_repeat_count_size`: TIS returns 4 for LIDATA32 and 2 for
LIDATA; PharLap always returns 2; IBM inherits the TIS method. -/
def Variant.lidata_repeat_count_size (v : Variant) (is_32bit : Bool) : Nat :=
  match v with
  | .pharLap => 2
  | _ => if is_32bit then 4 else 2

/-- `Variant.segdef_has_access_byte`: only PharLap overrides this to `True`. -/
def Variant.segdef_has_access_byte (v : Variant) : Bool :=
  match v with
  | .pharLap => true
  | _ => false

/-- Attribute lookup of `omf_variant` on a `Variant` instance.  The `Variant`
dataclass in `variant.py` declares only the field `name`, and neither
`PharLapVariant` nor `IBMVariant` adds an `omf_variant` attribute, so the
lookup finds nothing: Python raises `AttributeError` wherever the code reads
`<variant>.omf_variant`.  The embedding returns `none` and call sites turn
that into `PyErr.attributeError`. -/
def Variant.omf_variant_attr (v : Variant) : Option OMFVariant := none

/-- Record-type byte constants from `constants.RecordType` (the subset used
by the embedded code). -/
def RecordType.THEADR : Nat := 0x80
def RecordType.LHEADR : Nat := 0x82
def RecordType.COMENT : Nat := 0x88
def RecordType.MODEND : Nat := 0x8A
def RecordType.MODEND32 : Nat := 0x8B
def RecordType.EXTDEF : Nat := 0x8C
def RecordType.SEGDEF : Nat := 0x98
def RecordType.SEGDEF32 : Nat := 0x99
def RecordType.LIDATA : Nat := 0xA2
def RecordType.LIDATA32 : Nat := 0xA3
def RecordType.COMDEF : Nat := 0xB0
def RecordType.LEXTDEF : Nat := 0xB4
def RecordType.LEXTDEF2 : Nat := 0xB5
def RecordType.LCOMDEF : Nat := 0xB8
def RecordType.CEXTDEF : Nat := 0xBC
def RecordType.VENDEXT : Nat := 0xCE
def RecordType.LIBHDR : Nat := 0xF0
def RecordType.LIBEND : Nat := 0xF1

/-- A sequence of Python `bytes`: every element is below 256. -/
def ByteSeq (data : List Nat) : Prop := ∀ b ∈ data, b < 256

instance : DecidablePred ByteSeq := fun data =>
  inferInstanceAs (Decidable (∀ b ∈ data, b < 256))

/-- Uppercase hex digit, used when the source formats bytes with `{b:02X}`. -/
def hexDigit (n : Nat) : Char :=
  if n < 10 then Char.ofNat (48 + n) else Char.ofNat (55 + n)

/-- Two-digit uppercase hex rendering of a byte (`f"{b:02X}"`). -/
def hexByte (b : Nat) : String :=
  String.mk [hexDigit (b / 16 % 16), hexDigit (b % 16)]

/-- `bytes.decode('ascii', errors='replace')`: bytes below 128 decode to the
corresponding character, anything else becomes U+FFFD. -/
def decodeAsciiReplace (bs : List Nat) : String :=
  String.mk (bs.map fun b => if b < 128 then Char.ofNat b else Char.ofNat 0xFFFD)

/-- `bytes.decode('ascii', errors='ignore')` followed by `.lower()`, kept at
the byte level: non-ASCII bytes are dropped and ASCII uppercase letters are
lowered.  Used by the scanner's COMENT text sniffing. -/
def asciiIgnoreLower (bs : List Nat) : List Nat :=
  (bs.filter fun b => b < 128).map fun b =>
    if 65 ≤ b ∧ b ≤ 90 then b + 32 else b

/-- Python's `sub in s` on byte strings. -/
def containsSeq (pat : List Nat) : List Nat → Bool
  | [] => pat.isEmpty
  | b :: rest => pat.isPrefixOf (b :: rest) || containsSeq pat rest

/-- Byte spelling of the lowered marker strings searched for in COMENT text. -/
def textPharlap : List Nat := [0x70, 0x68, 0x61, 0x72, 0x6C, 0x61, 0x70]

def textPharSpaceLap : List Nat := [0x70, 0x68, 0x61, 0x72, 0x20, 0x6C, 0x61, 0x70]

def textIbm : List Nat := [0x69, 0x62, 0x6D]

def textLink386 : List Nat := [0x6C, 0x69, 0x6E, 0x6B, 0x33, 0x38, 0x36]

def textBorland : List Nat := [0x62, 0x6F, 0x72, 0x6C, 0x61, 0x6E, 0x64]

/-- `RecordInfo` (scanner.py): metadata about one scanned record.  `checksum`
and `checksum_valid` are `None` exactly for the library header/end records. -/
structure RecordInfo where
  type : Nat
  offset : Nat
  length : Nat
  content : List Nat
  checksum : Option Nat
  checksum_valid : Option Bool
  module_variant : Option Variant := none
  deriving DecidableEq, Repr

/-- The mutable scanner fields of `Scanner.__init__` other than the records
being accumulated. -/
structure ScanState where
  offset : Nat
  features : List String
  variant : Variant
  is_library : Bool
  has_32bit_records : Bool
  mixed_variants : Bool
  warnings : List String
  module_variant : Variant
  seen_variants : List OMFVariant
  module_start_idx : Nat
  deriving DecidableEq, Repr

/-- Initial scanner state (`Scanner.__init__`); `is_library` is set by `scan`
before the loop when the first byte is `LIBHDR`. -/
def ScanState.init : ScanState :=
  { offset := 0
    features := []
    variant := .tisStandard
    is_library := false
    has_32bit_records := false
    mixed_variants := false
    warnings := []
    module_variant := .tisStandard
    seen_variants := []
    module_start_idx := 0 }

/-- The 32-bit record types recognised by `RecordType(...).is_32bit` (enum
names ending in "32"). -/
def isKnown32bitType (t : Nat) : Bool :=
  t = 0x8B ∨ t = 0x91 ∨ t = 0x95 ∨ t = 0x99 ∨ t = 0x9D ∨ t = 0xA1 ∨
  t = 0xA3 ∨ t = 0xB3 ∨ t = 0xB7 ∨ t = 0xC3 ∨ t = 0xC5 ∨ t = 0xC9

/-- `Scanner._validate_checksum`: a zero checksum is always accepted
("skipped"); otherwise the 8-bit sum of the whole record must vanish. -/
def Scanner.validate_checksum (record_data : List Nat) (checksum : Nat) : Bool :=
  if checksum = 0 then true else record_data.sum % 256 = 0

/-- `Scanner._read_record`: read one record at the current offset.  Returns
`none` when fewer than 3 header bytes remain or the declared length overruns
the file; otherwise the record plus the updated state.  The two bytes of the
length field are reassembled little-endian, and `struct.pack('<H', rec_len)`
is `[rec_len % 256, rec_len / 256]` (the length came from two bytes, so it is
below 2^16 whenever the data is a real byte sequence). -/
def Scanner.read_record (data : List Nat) (st : ScanState) :
    Option (RecordInfo × ScanState) :=
  if st.offset + 3 > data.length then none
  else
    let rec_offset := st.offset
    let rec_type := data.getD rec_offset 0
    let has32 := st.has_32bit_records || isKnown32bitType rec_type
    let rec_len := data.getD (rec_offset + 1) 0 + 256 * data.getD (rec_offset + 2) 0
    if rec_offset + 3 + rec_len > data.length then none
    else
      let raw_content := (data.drop (rec_offset + 3)).take rec_len
      let st' := { st with offset := rec_offset + 3 + rec_len, has_32bit_records := has32 }
      if rec_type = RecordType.LIBHDR ∨ rec_type = RecordType.LIBEND then
        some ({ type := rec_type, offset := rec_offset, length := rec_len,
                content := raw_content, checksum := none, checksum_valid := none }, st')
      else
        let checksum := raw_content.getLast?.getD 0
        let content := raw_content.dropLast
        let full_record := rec_type :: (rec_len % 256) :: (rec_len / 256) :: raw_content
        let checksum_valid := Scanner.validate_checksum full_record checksum
        some ({ type := rec_type, offset := rec_offset, length := rec_len,
                content := content, checksum := some checksum,
                checksum_valid := some checksum_valid }, st')

/-- `Scanner._detect_coment_features`: COMENT class `0xAA` (Easy OMF) switches
the file and module variant to PharLap and records features; the comment text
is then sniffed (case-insensitively) for vendor markers. -/
def Scanner.detect_coment_features (record : RecordInfo) (record_idx : Nat)
    (st : ScanState) : ScanState :=
  if record.content.length < 2 then st
  else
    let comment_class := record.content.getD 1 0
    let st :=
      if comment_class = 0xAA then
        let st := { st with variant := .pharLap, module_variant := .pharLap,
                            features := st.features ++ ["easy_omf", "pharlap"] }
        -- `_validate_easy_omf_placement`
        if record_idx ≠ st.module_start_idx + 1 then
          { st with warnings := st.warnings ++
              ["Easy OMF-386 marker at record " ++ toString record_idx ++
               " (offset 0x" ++ hexByte record.offset ++ ") is not immediately after THEADR"] }
        else st
      else st
    if record.content.length > 2 then
      let text := asciiIgnoreLower (record.content.drop 2)
      if containsSeq textPharlap text || containsSeq textPharSpaceLap text then
        let st := if st.variant = .tisStandard then { st with variant := .pharLap } else st
        { st with module_variant := .pharLap }
      else if containsSeq textIbm text || containsSeq textLink386 text then
        { st with variant := .ibmLink386, module_variant := .ibmLink386 }
      else if containsSeq textBorland text then
        { st with features := st.features ++ ["borland"] }
      else st
    else st

/-- `Scanner._detect_vendext_features`. -/
def Scanner.detect_vendext_features (record : RecordInfo) (st : ScanState) : ScanState :=
  if record.content.length ≥ 2 then
    let vendor_num := record.content.getD 0 0 + 256 * record.content.getD 1 0
    { st with features := st.features ++ ["vendext_" ++ toString vendor_num] }
  else st

/-- `Scanner._detect_features`. -/
def Scanner.detect_features (record : RecordInfo) (record_idx : Nat)
    (st : ScanState) : ScanState :=
  if record.type = RecordType.COMENT then
    Scanner.detect_coment_features record record_idx st
  else if record.type = RecordType.VENDEXT then
    Scanner.detect_vendext_features record st
  else st

/-- The record-updating loop of `Scanner._finalize_module`: assign the current
module variant to `records[module_start_idx : end_idx]`. -/
def assignModuleVariant (records : List RecordInfo) (startIdx endIdx : Nat)
    (mv : Variant) : List RecordInfo :=
  records.mapIdx fun i r =>
    if startIdx ≤ i ∧ i < endIdx then { r with module_variant := some mv } else r

/-- `Scanner._finalize_module`: stamp the module variant onto the records of
the current module, then add `self._module_variant.omf_variant` to the seen
set.  That attribute read always raises `AttributeError` (see
`Variant.omf_variant_attr`), so this function never returns successfully;
the `some` branch transcribes what line 101 would do if the attribute
existed. -/
def Scanner.finalize_module (st : ScanState) (records : List RecordInfo)
    (exclude_last : Bool) : Except PyErr (List RecordInfo × ScanState) :=
  let end_idx := if exclude_last then records.length - 1 else records.length
  let records := assignModuleVariant records st.module_start_idx end_idx st.module_variant
  match st.module_variant.omf_variant_attr with
  | some ov => .ok (records, { st with seen_variants := st.seen_variants ++ [ov] })
  | none => .error .attributeError

/-- `Scanner._track_module_boundaries`: THEADR/LHEADR finalizes the previous
module (excluding the header just appended) and starts a new one; MODEND
finalizes the current module. -/
def Scanner.track_module_boundaries (record : RecordInfo)
    (records : List RecordInfo) (st : ScanState) :
    Except PyErr (List RecordInfo × ScanState) :=
  if record.type = RecordType.THEADR ∨ record.type = RecordType.LHEADR then
    match Scanner.finalize_module st records true with
    | .error e => .error e
    | .ok (records', st') =>
        .ok (records', { st' with module_start_idx := records'.length - 1,
                                  module_variant := .tisStandard })
  else if record.type = RecordType.MODEND ∨ record.type = RecordType.MODEND32 then
    Scanner.finalize_module st records false
  else .ok (records, st)

/-- The `while self.offset < len(self.data)` loop of `Scanner.scan`.  Library
padding bytes (0x00) are skipped one at a time; a failed `_read_record` or a
LIBEND record breaks out of the loop.  Each iteration advances `offset`, so
fuel `data.length + 1` never runs out; the fuel-exhaustion branch returns the
records accumulated so far, which no theorem depends on. -/
def Scanner.scanLoop (data : List Nat) :
    Nat → List RecordInfo → ScanState → Except PyErr (List RecordInfo × ScanState)
  | 0, records, st => .ok (records, st)
  | fuel + 1, records, st =>
    if st.offset < data.length then
      if st.is_library ∧ data.getD st.offset 0 = 0 then
        Scanner.scanLoop data fuel records { st with offset := st.offset + 1 }
      else
        match Scanner.read_record data st with
        | none => .ok (records, st)
        | some (record, st') =>
          let st'' := Scanner.detect_features record records.length st'
          let records' := records ++ [record]
          match Scanner.track_module_boundaries record records' st'' with
          | .error e => .error e
          | .ok (records'', st''') =>
            if record.type = RecordType.LIBEND then .ok (records'', st''')
            else Scanner.scanLoop data fuel records'' st'''
    else .ok (records, st)

/-- `Scanner.scan`: empty input returns no records; otherwise run the record
loop, then `_finalize_module(records)` and the final
`self._seen_variants.add(self._module_variant.omf_variant)` (scanner.py lines
79-80), both of which dereference the missing `omf_variant` attribute. -/
def Scanner.scan (data : List Nat) : Except PyErr (List RecordInfo) :=
  if data.isEmpty then .ok []
  else
    let st0 := { ScanState.init with is_library := data.getD 0 0 = RecordType.LIBHDR }
    match Scanner.scanLoop data (data.length + 1) [] st0 with
    | .error e => .error e
    | .ok (records, st) =>
      match Scanner.finalize_module st records false with
      | .error e => .error e
      | .ok (records, st) =>
        match st.module_variant.omf_variant_attr with
        | none => .error .attributeError
        | some ov =>
          let st := { st with seen_variants := st.seen_variants ++ [ov] }
          let st := if st.is_library ∧ 1 < st.seen_variants.dedup.length then
            { st with mixed_variants := true } else st
          .ok records

/-! ## `parsing.py` — the `RecordParser` cursor -/

/-- `RecordParser` (parsing.py): a cursor over one record's content bytes,
carrying the active variant for field-size queries.  `big_endian` is always
`False` in the embedded call sites and is omitted. -/
structure RecordParser where
  data : List Nat
  offset : Nat
  variant : Variant
  deriving DecidableEq, Repr

/-- `OMFFile.make_parser` / `RecordParser.__init__`. -/
def mkParser (content : List Nat) (variant : Variant) : RecordParser :=
  { data := content, offset := 0, variant := variant }

/-- `RecordParser.read_byte`. -/
def RecordParser.read_byte (p : RecordParser) : Option Nat × RecordParser :=
  if p.offset < p.data.length then
    (some (p.data.getD p.offset 0), { p with offset := p.offset + 1 })
  else (none, p)

/-- `RecordParser.read_bytes`: `none` (without consuming) when fewer than `n`
bytes remain; `read_bytes(None)` is also `None`. -/
def RecordParser.read_bytes (p : RecordParser) (n : Option Nat) :
    Option (List Nat) × RecordParser :=
  match n with
  | none => (none, p)
  | some n =>
    if p.offset + n ≤ p.data.length then
      (some ((p.data.drop p.offset).take n), { p with offset := p.offset + n })
    else (none, p)

/-- `RecordParser.bytes_remaining`. -/
def RecordParser.bytes_remaining (p : RecordParser) : Nat :=
  p.data.length - p.offset

/-- `RecordParser.parse_index`: 1- or 2-byte OMF index field.  A set high bit
(`IndexFlags.TWO_BYTE_FLAG = 0x80`) selects the two-byte form
`((b1 & 0x7F) << 8) + b2`; a missing byte yields 0. -/
def RecordParser.parse_index (p : RecordParser) : Nat × RecordParser :=
  match p.read_byte with
  | (none, p) => (0, p)
  | (some b1, p) =>
    if b1 &&& 0x80 ≠ 0 then
      match p.read_byte with
      | (none, p) => (0, p)
      | (some b2, p) => ((b1 &&& 0x7F) * 256 + b2, p)
    else (b1, p)

/-- `RecordParser.parse_name`: length-preceded string, decoded as ASCII with
replacement.  A missing or zero length byte, or a truncated body, yields "". -/
def RecordParser.parse_name (p : RecordParser) : String × RecordParser :=
  match p.read_byte with
  | (none, p) => ("", p)
  | (some len, p) =>
    if len = 0 then ("", p)
    else
      match p.read_bytes (some len) with
      | (none, p) => ("", p)
      | (some raw, p) => (decodeAsciiReplace raw, p)

/-- `RecordParser.parse_numeric`: little-endian value of 1-4 bytes; truncated
reads (and the degenerate size-0 read, whose `b''` result is falsy) yield 0. -/
def RecordParser.parse_numeric (p : RecordParser) (size_bytes : Nat) :
    Nat × RecordParser :=
  match p.read_bytes (some size_bytes) with
  | (none, p) => (0, p)
  | (some raw, p) =>
    match size_bytes with
    | 1 => (raw.getD 0 0, p)
    | 2 => (raw.getD 0 0 + 256 * raw.getD 1 0, p)
    | 3 => (raw.getD 0 0 + 256 * raw.getD 1 0 + 65536 * raw.getD 2 0, p)
    | 4 => (raw.getD 0 0 + 256 * raw.getD 1 0 + 65536 * raw.getD 2 0 +
            16777216 * raw.getD 3 0, p)
    | _ => (0, p)

/-- `RecordParser.get_offset_field_size` delegates to the variant. -/
def RecordParser.get_offset_field_size (p : RecordParser) (is_32bit : Bool) : Nat :=
  p.variant.offset_field_size is_32bit

/-- `RecordParser.get_lidata_repeat_count_size` delegates to the variant. -/
def RecordParser.get_lidata_repeat_count_size (p : RecordParser) (is_32bit : Bool) : Nat :=
  p.variant.lidata_repeat_count_size is_32bit

/-- `RecordParser.parse_variable_length_int` (COMDEF/TYPDEF style): values up
to `0x80` stand for themselves; `0x81`/`0x84`/`0x88` prefix 2-, 3- and 4-byte
little-endian values; any other first byte stands for itself. -/
def RecordParser.parse_variable_length_int (p : RecordParser) : Nat × RecordParser :=
  match p.read_byte with
  | (none, p) => (0, p)
  | (some b, p) =>
    if b ≤ 0x80 then (b, p)
    else if b = 0x81 then p.parse_numeric 2
    else if b = 0x84 then p.parse_numeric 3
    else if b = 0x88 then p.parse_numeric 4
    else (b, p)

/-! ## `file.py` — the Phase 2 File Context -/

/-- The mutable `OMFFile` fields that Phase 2 reads and writes
(`OMFFile.__init__`).  `last_data_record` is the `('LEDATA'|'LIDATA',
segment_index, offset)` triple left by the most recent data record. -/
structure OMFState where
  variant : Variant
  features : List String
  is_library : Bool
  lnames : List String
  segdefs : List String
  grpdefs : List String
  extdefs : List String
  typdefs : List String
  last_data_record : Option (String × Nat × Nat)
  warnings : List String
  errors : List String
  deriving DecidableEq, Repr

/-- `OMFFile.__init__`: all five symbol tables start with the index-0
sentinel `"<null>"`. -/
def OMFState.init : OMFState :=
  { variant := .tisStandard
    features := []
    is_library := false
    lnames := ["<null>"]
    segdefs := ["<null>"]
    grpdefs := ["<null>"]
    extdefs := ["<null>"]
    typdefs := ["<null>"]
    last_data_record := none
    warnings := []
    errors := []
  }

/-- `RESERVED_SEGMENTS` from constants.py. -/
def RESERVED_SEGMENTS : List String := ["$$TYPES", "$$SYMBOLS", "$$IMPORT"]

/-- A single-quote character, written via its code point. -/
def squote : String := String.mk [Char.ofNat 39]

/-- `OMFFile.get_lname`: quoted name (tagged when reserved) for in-range
indexes, else a placeholder.  (`index is None` cannot arise in the embedded
call sites, where indexes come from `parse_index`.) -/
def OMFState.get_lname (st : OMFState) (index : Nat) : String :=
  if index < st.lnames.length then
    let name := st.lnames.getD index ""
    if name ∈ RESERVED_SEGMENTS then squote ++ name ++ squote ++ " [RESERVED]"
    else squote ++ name ++ squote
  else "LName#" ++ toString index ++ "(?)"

/-- `OMFFile.get_segdef`. -/
def OMFState.get_segdef (st : OMFState) (index : Nat) : String :=
  if index < st.segdefs.length then st.segdefs.getD index ""
  else "Seg#" ++ toString index

/-! ## `records/theadr.py` — THEADR/LHEADR handler -/

/-- `ParsedTheadr` (models.py). -/
structure ParsedTheadr where
  record_name : String
  module_name : String
  deriving DecidableEq, Repr

/-- `handle_theadr` (records/theadr.py): reset the five per-module symbol
tables to their sentinel state, then parse the module name.  Registered for
THEADR (80H) and LHEADR (82H).  (`records/standard.py` carries a line-for-line
identical copy of this handler.)  Note that `last_data_record` is not
touched. -/
def handle_theadr (omf : OMFState) (record : RecordInfo) :
    OMFState × ParsedTheadr :=
  let omf := { omf with lnames := ["<null>"], segdefs := ["<null>"],
                        grpdefs := ["<null>"], extdefs := ["<null>"],
                        typdefs := ["<null>"] }
  let sub := mkParser record.content omf.variant
  let name := sub.parse_name.1
  let rec_name := if record.type = RecordType.THEADR then "THEADR" else "LHEADR"
  (omf, { record_name := rec_name, module_name := name })

/-! ## `records/extdef.py` — EXTDEF/LEXTDEF and CEXTDEF handlers -/

/-- `ExtDefEntry` (models.py). -/
structure ExtDefEntry where
  index : Nat
  name : String
  type_index : Nat
  deriving DecidableEq, Repr

/-- `CExtDefEntry` (models.py). -/
structure CExtDefEntry where
  index : Nat
  name : String
  type_index : Nat
  deriving DecidableEq, Repr

/-- The `while sub.bytes_remaining() > 0` loop of `handle_extdef`: parse a
name and a type index, append the name to the shared `extdefs` table and an
entry to the result.  Each iteration consumes at least one byte, so fuel
`bytes_remaining + 1` never runs out. -/
def extdefLoop :
    Nat → RecordParser → List String → List ExtDefEntry →
    List String × List ExtDefEntry × RecordParser
  | 0, p, extdefs, entries => (extdefs, entries, p)
  | fuel + 1, p, extdefs, entries =>
    if p.bytes_remaining > 0 then
      let (name, p) := p.parse_name
      let (type_idx, p) := p.parse_index
      let idx := extdefs.length
      extdefLoop fuel p (extdefs ++ [name])
        (entries ++ [{ index := idx, name := name, type_index := type_idx }])
    else (extdefs, entries, p)

/-- The names that one EXTDEF/LEXTDEF record contributes to `extdefs`, read
off the same loop. -/
def extdefNamesAux : Nat → RecordParser → List String
  | 0, _ => []
  | fuel + 1, p =>
    if p.bytes_remaining > 0 then
      let (name, p) := p.parse_name
      let (_, p) := p.parse_index
      name :: extdefNamesAux fuel p
    else []

/-- Contribution of an EXTDEF/LEXTDEF/LEXTDEF2 record body to `extdefs`. -/
def extdefNamesOf (variant : Variant) (content : List Nat) : List String :=
  extdefNamesAux (content.length + 1) (mkParser content variant)

/-- `handle_extdef` (records/extdef.py; identical in records/standard.py):
EXTDEF (8CH) and LEXTDEF (B4H/B5H). -/
def handle_extdef (omf : OMFState) (record : RecordInfo) :
    OMFState × Bool × List ExtDefEntry :=
  let sub := mkParser record.content omf.variant
  let is_local := record.type = RecordType.LEXTDEF ∨ record.type = RecordType.LEXTDEF2
  let res := extdefLoop (sub.bytes_remaining + 1) sub omf.extdefs []
  ({ omf with extdefs := res.1 }, is_local, res.2.1)

/-- The `while` loop of `handle_cextdef`: parse a name index and a type
index; the appended name is the LNAMES string when the index is in range,
else a `LName#i` placeholder. -/
def cextdefLoop (lnames : List String) :
    Nat → RecordParser → List String → List CExtDefEntry → OMFState →
    List String × List CExtDefEntry × RecordParser
  | 0, p, extdefs, entries, _ => (extdefs, entries, p)
  | fuel + 1, p, extdefs, entries, omf =>
    if p.bytes_remaining > 0 then
      let (name_idx, p) := p.parse_index
      let (type_idx, p) := p.parse_index
      let name := if name_idx < lnames.length then lnames.getD name_idx ""
                  else "LName#" ++ toString name_idx
      let idx := extdefs.length
      cextdefLoop lnames fuel p (extdefs ++ [name])
        (entries ++ [{ index := idx, name := omf.get_lname name_idx,
                       type_index := type_idx }]) omf
    else (extdefs, entries, p)

/-- The names that one CEXTDEF record contributes to `extdefs`. -/
def cextdefNamesAux (lnames : List String) : Nat → RecordParser → List String
  | 0, _ => []
  | fuel + 1, p =>
    if p.bytes_remaining > 0 then
      let (name_idx, p) := p.parse_index
      let (_, p) := p.parse_index
      let name := if name_idx < lnames.length then lnames.getD name_idx ""
                  else "LName#" ++ toString name_idx
      name :: cextdefNamesAux lnames fuel p
    else []

/-- Contribution of a CEXTDEF record body to `extdefs`, resolving name
indexes against the current LNAMES table. -/
def cextdefNamesOf (variant : Variant) (lnames : List String)
    (content : List Nat) : List String :=
  cextdefNamesAux lnames (content.length + 1) (mkParser content variant)

/-- `handle_cextdef` (records/extdef.py; identical in records/standard.py):
CEXTDEF (BCH). -/
def handle_cextdef (omf : OMFState) (record : RecordInfo) :
    OMFState × List CExtDefEntry :=
  let sub := mkParser record.content omf.variant
  let res := cextdefLoop omf.lnames (sub.bytes_remaining + 1) sub omf.extdefs [] omf
  ({ omf with extdefs := res.1 }, res.2.1)

/-! ## `records/comdef.py` — COMDEF/LCOMDEF handler -/

/-- The comparison `data_type == ComdefType.FAR` (records/comdef.py line 34).
`data_type` is the `int` returned by `read_byte`, while `ComdefType.FAR` is a
`StrEnum` member with value `"FAR"`; in Python an `int` never equals a `str`,
so the comparison is `False` for every byte.  (The integer constants
`COMDEF_TYPE_FAR = 0x61` / `COMDEF_TYPE_NEAR = 0x62` that constants.py says
are "used in parsing comparisons" are not used here.) -/
def comdefEqFar (data_type : Nat) : Bool := false

/-- The comparison `data_type == ComdefType.NEAR` — `False` for every byte,
for the same reason as `comdefEqFar`. -/
def comdefEqNear (data_type : Nat) : Bool := false

/-- `COMDEF_BORLAND_MAX` from constants.py. -/
def COMDEF_BORLAND_MAX : Nat := 0x5F

/-- Constructing `ComDefFarDefinition` (models.py) with `data_type=<int>`:
the model field `data_type : ComdefType` is strict, so pydantic raises a
`ValidationError`.  (Unreachable: guarded by `comdefEqFar`.) -/
def mkComDefFarDefinition : Except PyErr Unit := .error .validationError

/-- Constructing `ComDefNearDefinition` — as for `mkComDefFarDefinition`.
(Unreachable: guarded by `comdefEqNear`.) -/
def mkComDefNearDefinition : Except PyErr Unit := .error .validationError

/-- Constructing `ComDefBorlandDefinition` (models.py): all required fields
(`name`, `type_index`, `kind`, `seg_index`, `length`) are supplied with
values of the declared types; the extra `data_type=` keyword is ignored
(pydantic's default `extra='ignore'`), so construction succeeds. -/
def mkComDefBorlandDefinition : Except PyErr Unit := .ok ()

/-- Constructing `ComDefUnknownDefinition` (models.py): the call site passes
`data_type=` but the model's required field is named `raw_data_type`, which
is therefore missing, and pydantic raises a `ValidationError`. -/
def mkComDefUnknownDefinition : Except PyErr Unit := .error .validationError

/-- The `while sub.bytes_remaining() > 0` loop of `handle_comdef`
(records/comdef.py; the registered copy in records/microsoft.py differs only
in dropping the truncation warning).  Each iteration parses
name/type-index/data-type, branches on the data type, constructs the
definition model, and only then appends the name to `extdefs`; a raised
`ValidationError` therefore leaves the current name unappended and aborts the
rest of the record.  Returns the updated `extdefs`, the result warnings, the
cursor, and the exception outcome. -/
def comdefLoop :
    Nat → RecordParser → List String → List String →
    List String × List String × RecordParser × Except PyErr Unit
  | 0, p, extdefs, warns => (extdefs, warns, p, .ok ())
  | fuel + 1, p, extdefs, warns =>
    if p.bytes_remaining > 0 then
      let (name, p) := p.parse_name
      let (_type_idx, p) := p.parse_index
      match p.read_byte with
      | (none, p) => (extdefs, warns ++ ["Truncated COMDEF record"], p, .ok ())
      | (some data_type, p) =>
        if comdefEqFar data_type then
          let (_num_elements, p) := p.parse_variable_length_int
          let (_element_size, p) := p.parse_variable_length_int
          match mkComDefFarDefinition with
          | .error e => (extdefs, warns, p, .error e)
          | .ok _ => comdefLoop fuel p (extdefs ++ [name]) warns
        else if comdefEqNear data_type then
          let (_size, p) := p.parse_variable_length_int
          match mkComDefNearDefinition with
          | .error e => (extdefs, warns, p, .error e)
          | .ok _ => comdefLoop fuel p (extdefs ++ [name]) warns
        else if 1 ≤ data_type ∧ data_type ≤ COMDEF_BORLAND_MAX then
          let (_length, p) := p.parse_variable_length_int
          match mkComDefBorlandDefinition with
          | .error e => (extdefs, warns, p, .error e)
          | .ok _ => comdefLoop fuel p (extdefs ++ [name]) warns
        else
          let (_length, p) := p.parse_variable_length_int
          match mkComDefUnknownDefinition with
          | .error e => (extdefs, warns, p, .error e)
          | .ok _ => comdefLoop fuel p (extdefs ++ [name]) warns
    else (extdefs, warns, p, .ok ())

/-- `handle_comdef` (records/comdef.py): COMDEF (B0H) and LCOMDEF (B8H).
The exception outcome propagates to `OMFFile._parse_record`'s handler
guard. -/
def handle_comdef (omf : OMFState) (record : RecordInfo) :
    OMFState × Except PyErr Unit :=
  let sub := mkParser record.content omf.variant
  let res := comdefLoop (sub.bytes_remaining + 1) sub omf.extdefs []
  ({ omf with extdefs := res.1 }, res.2.2.2)

/-! ## `models.py` / `records/lidata.py` — LIDATA iterated data -/

/-- `ParsedLIDataBlock` (models.py): one (possibly nested) LIDATA data
block. -/
inductive LIDataBlock where
  | mk (repeat_count : Nat) (block_count : Nat) (content : Option (List Nat))
       (nested_blocks : List LIDataBlock) (expanded_size : Nat)

def LIDataBlock.repeat_count : LIDataBlock → Nat
  | .mk rc _ _ _ _ => rc

def LIDataBlock.block_count : LIDataBlock → Nat
  | .mk _ bc _ _ _ => bc

def LIDataBlock.content : LIDataBlock → Option (List Nat)
  | .mk _ _ c _ _ => c

def LIDataBlock.nested_blocks : LIDataBlock → List LIDataBlock
  | .mk _ _ _ ns _ => ns

def LIDataBlock.expanded_size : LIDataBlock → Nat
  | .mk _ _ _ _ e => e

mutual

/-- `ParsedLIDataBlock.calculate_expanded_size` (models.py lines 432-440):
a leaf block (`block_count == 0`) expands to `repeat_count * len(content)`;
a nested block expands to `repeat_count` times the sum of its children's
expanded sizes, recomputing the children first. -/
def calculate_expanded_size : LIDataBlock → LIDataBlock
  | .mk rc bc content nested _ =>
    if bc = 0 then
      let content_size := match content with
        | some c => c.length
        | none => 0
      .mk rc bc content nested (rc * content_size)
    else
      let nested' := calcExpandedList nested
      .mk rc bc content nested' (rc * (nested'.map LIDataBlock.expanded_size).sum)

/-- The `sum(b.calculate_expanded_size() for b in self.nested_blocks)`
traversal. -/
def calcExpandedList : List LIDataBlock → List LIDataBlock
  | [] => []
  | b :: bs => calculate_expanded_size b :: calcExpandedList bs

end

/-- The warning text helper used by `parse_lidata_blocks` (exact message
interpolation elided to its prefix). -/
def truncBlockWarning (depth : Nat) : String :=
  "Truncated data block at depth " ++ toString depth

mutual

/-- `parse_data_block` (records/lidata.py, nested in `parse_lidata_blocks`):
read `repeat_count` (variant-sized) and a 2-byte `block_count`; a leaf block
reads a 1-byte content length and that many content bytes (clamped at the
record end with a warning); a nested block recursively reads `block_count`
children.  State threaded: cursor, `truncated` flag, warnings.  The fuel
argument decreases on every recursive call; since a block header consumes at
least `repeat_size + 2 >= 4` bytes and failed children consume none (and once
a child fails, every later sibling fails, as the remaining byte count never
grows), fuel `bytes_remaining + 1` at the top level reproduces the source's
block structure exactly — exhaustion can at most drop warning strings for
absurd declared block counts. -/
def parse_data_block (is32 : Bool) (fuel : Nat) (p : RecordParser) (depth : Nat)
    (truncated : Bool) (warns : List String) :
    Option LIDataBlock × RecordParser × Bool × List String :=
  match fuel with
  | 0 => (none, p, truncated, warns)
  | fuel + 1 =>
    let repeat_size := p.get_lidata_repeat_count_size is32
    let min_bytes := repeat_size + 2
    if p.bytes_remaining < min_bytes then
      if p.bytes_remaining > 0 ∧ truncated = false then
        (none, p, true, warns ++ [truncBlockWarning depth])
      else (none, p, truncated, warns)
    else
      let rRep := p.parse_numeric repeat_size
      let repeat_count := rRep.1
      let rCnt := rRep.2.parse_numeric 2
      let block_count := rCnt.1
      let p := rCnt.2
      if block_count = 0 then
        match p.read_byte.1 with
        | none =>
          (some (.mk repeat_count block_count none [] 0), p.read_byte.2, truncated,
           warns ++ ["Missing content length byte at depth " ++ toString depth])
        | some content_len =>
          let p := p.read_byte.2
          if p.bytes_remaining < content_len then
            let rCon := p.read_bytes (some p.bytes_remaining)
            (some (.mk repeat_count block_count (some (rCon.1.getD [])) [] 0), rCon.2,
             truncated, warns ++ ["Truncated content at depth " ++ toString depth])
          else
            let rCon := p.read_bytes (some content_len)
            (some (.mk repeat_count block_count (some (rCon.1.getD [])) [] 0), rCon.2,
             truncated, warns)
      else
        let rNest := parse_nested_blocks is32 fuel block_count p depth truncated warns
        (some (.mk repeat_count block_count none rNest.1 0), rNest.2.1,
         rNest.2.2.1, rNest.2.2.2)

/-- The `for i in range(block_count)` loop collecting nested blocks; a `None`
child is skipped (with a warning when the truncated flag is still clear). -/
def parse_nested_blocks (is32 : Bool) (fuel : Nat) (count : Nat)
    (p : RecordParser) (depth : Nat) (truncated : Bool) (warns : List String) :
    List LIDataBlock × RecordParser × Bool × List String :=
  match fuel, count with
  | 0, _ => ([], p, truncated, warns)
  | _ + 1, 0 => ([], p, truncated, warns)
  | fuel + 1, count + 1 =>
    let rChild := parse_data_block is32 fuel p (depth + 1) truncated warns
    match rChild.1 with
    | some child =>
      let rRest := parse_nested_blocks is32 fuel count rChild.2.1 depth
        rChild.2.2.1 rChild.2.2.2
      (child :: rRest.1, rRest.2)
    | none =>
      let warns := if rChild.2.2.1 = false then
          rChild.2.2.2 ++ ["Missing nested block at depth " ++ toString depth]
        else rChild.2.2.2
      parse_nested_blocks is32 fuel count rChild.2.1 depth rChild.2.2.1 warns

end

/-- The `while sub.bytes_remaining() > 0` loop of `parse_lidata_blocks`:
parse top-level blocks, computing each one's expanded size as it is
appended; a failed parse breaks out. -/
def lidataBlocksLoop (is32 : Bool) :
    Nat → RecordParser → Bool → List String →
    List LIDataBlock × RecordParser × List String
  | 0, p, _, warns => ([], p, warns)
  | fuel + 1, p, truncated, warns =>
    if p.bytes_remaining > 0 then
      let rTop := parse_data_block is32 (p.bytes_remaining + 1) p 0 truncated warns
      match rTop.1 with
      | some block =>
        let block := calculate_expanded_size block
        let rRest := lidataBlocksLoop is32 fuel rTop.2.1 rTop.2.2.1 rTop.2.2.2
        (block :: rRest.1, rRest.2)
      | none => ([], rTop.2.1, rTop.2.2.2)
    else ([], p, warns)

/-- `parse_lidata_blocks` (records/lidata.py): returns the top-level blocks
(with expanded sizes computed) and the accumulated warnings. -/
def parse_lidata_blocks (sub : RecordParser) (is32 : Bool) :
    List LIDataBlock × RecordParser × List String :=
  lidataBlocksLoop is32 (sub.bytes_remaining + 1) sub false []

/-- `ParsedLIData` (models.py), restricted to the fields the handler sets. -/
structure ParsedLIData where
  is_32bit : Bool
  segment : String
  segment_index : Nat
  offset : Nat
  blocks : List LIDataBlock
  total_expanded_size : Nat
  warnings : List String

/-- `handle_lidata` (records/lidata.py): LIDATA (A2H) and LIDATA32 (A3H).
Parses segment index and offset, then the iterated data blocks, aggregates
`total_expanded_size` as the sum of the top-level expanded sizes, and leaves
`last_data_record`. -/
def handle_lidata (omf : OMFState) (record : RecordInfo) :
    OMFState × ParsedLIData :=
  let sub := mkParser record.content omf.variant
  let is32 := record.type = RecordType.LIDATA32
  let r1 := sub.parse_index
  let seg_idx := r1.1
  let sub := r1.2
  let offset_size := sub.get_offset_field_size is32
  let r2 := sub.parse_numeric offset_size
  let offset := r2.1
  let sub := r2.2
  let warns0 : List String :=
    if seg_idx = 0 then ["Segment index is zero (invalid per spec)"] else []
  let r3 := parse_lidata_blocks sub is32
  let blocks := r3.1
  let warns := r3.2.2
  let result : ParsedLIData :=
    { is_32bit := is32
      segment := omf.get_segdef seg_idx
      segment_index := seg_idx
      offset := offset
      blocks := blocks
      total_expanded_size := (blocks.map LIDataBlock.expanded_size).sum
      warnings := warns0 ++ warns }
  ({ omf with last_data_record := some ("LIDATA", seg_idx, offset) }, result)

/-! ## `records/segdef.py` — SEGDEF handler -/

/-- The `SegAlignment` `StrEnum` members (constants.py). -/
inductive SegAlignment where
  | absolute | byte | word | paragraph | page | dword | ltl | pharlapPage4K | undefined
  deriving DecidableEq, Repr

/-- The value lookup `SegAlignment(align_val)` (records/segdef.py line 32).
`SegAlignment` is a `StrEnum` whose member values are strings ("Absolute",
"Byte", ...), so looking up an `int` ACBP align field never matches a member
and Python raises `ValueError` (verified against CPython's enum semantics).
The class's `from_raw` classmethod, which does map ints to members, is not
called here. -/
def SegAlignment.lookupInt (v : Nat) : Option SegAlignment := none

/-- The `SegCombine` `StrEnum` members (constants.py). -/
inductive SegCombine where
  | private0 | reserved1 | public2 | reserved3 | public4 | stack | common | public7
  deriving DecidableEq, Repr

/-- The value lookup `SegCombine(combine_val)` — an `int` lookup on a
`StrEnum`, which always raises `ValueError`, exactly as for
`SegAlignment.lookupInt`. -/
def SegCombine.lookupInt (v : Nat) : Option SegCombine := none

/-- The `SegAccess` `StrEnum` members (constants.py). -/
inductive SegAccess where
  | ro | eo | er | rw
  deriving DecidableEq, Repr

/-- The value lookup `SegAccess(access_type)` — an `int` lookup on a
`StrEnum`, which always raises `ValueError`. -/
def SegAccess.lookupInt (v : Nat) : Option SegAccess := none

/-- `SegmentSize` constants (constants.py). -/
def SegmentSize.SIZE_64K : Nat := 0x10000

def SegmentSize.SIZE_4GB : Nat := 0x100000000

/-- The SEGDEF length decode of records/segdef.py lines 54-63 (identical in
records/standard.py lines 96-108): when the ACBP Big bit is set and the
length field is zero, the segment length is 2^32 for a 32-bit record and
2^16 otherwise; in every other case it is the field value itself.  `big` is
the raw ACBP bit (`(acbp >> 1) & 1`). -/
def segdefDecodedLength (big : Nat) (is_32bit : Bool) (length : Nat) : Nat :=
  if big ≠ 0 ∧ length = 0 then
    if is_32bit then SegmentSize.SIZE_4GB else SegmentSize.SIZE_64K
  else length

/-- `ParsedSegDef` (models.py), restricted to the fields the handler sets. -/
structure ParsedSegDef where
  acbp : Nat
  alignment : SegAlignment
  combine : SegCombine
  big : Bool
  use32 : Bool
  absolute_frame : Option Nat := none
  absolute_offset : Option Nat := none
  length : Nat := 0
  segment_name : String := ""
  class_name : String := ""
  overlay_name : String := ""
  access : Option SegAccess := none
  access_byte : Option Nat := none
  warnings : List String := []
  deriving DecidableEq, Repr

/-- The part of `handle_segdef` from the `ParsedSegDef` construction on
(records/segdef.py lines 34-91), reachable only if both `StrEnum` int lookups
were to succeed.  Transcribed for completeness: the absolute-alignment prefix,
the Big/zero length decode, the three name indexes, the PharLap access byte
(whose own `SegAccess` int lookup again raises), and the `segdefs` append. -/
def handle_segdef_rest (omf : OMFState) (sub : RecordParser) (is32 : Bool)
    (acbp align_val big use32 : Nat) (alignment : SegAlignment)
    (combine : SegCombine) : OMFState × Except PyErr (Option ParsedSegDef) :=
  let result : ParsedSegDef :=
    { acbp := acbp, alignment := alignment, combine := combine,
      big := big ≠ 0, use32 := use32 ≠ 0 }
  let absPrefix : Option (ParsedSegDef × RecordParser) :=
    if align_val = 0 then
      let rFrame := sub.parse_numeric 2
      match (rFrame.2.read_byte.1, rFrame.2.read_byte.2) with
      | (none, _) => none
      | (some off, sub) =>
        some ({ result with absolute_frame := some rFrame.1,
                            absolute_offset := some off }, sub)
    else some (result, sub)
  match absPrefix with
  | none =>
    -- truncated absolute offset: warn, append a placeholder segdef, return
    let raw_name := "Seg#" ++ toString omf.segdefs.length
    ({ omf with segdefs := omf.segdefs ++ [raw_name] }, .ok (some
      { result with warnings := ["Truncated SEGDEF absolute offset"] }))
  | some (result, sub) =>
    let size_bytes := sub.get_offset_field_size is32
    let rLen := sub.parse_numeric size_bytes
    let result := { result with length := segdefDecodedLength big is32 rLen.1 }
    let rSeg := rLen.2.parse_index
    let seg_name_idx := rSeg.1
    let rCls := rSeg.2.parse_index
    let rOvl := rCls.2.parse_index
    let sub := rOvl.2
    let result := { result with
      segment_name := omf.get_lname seg_name_idx
      class_name := omf.get_lname rCls.1
      overlay_name := omf.get_lname rOvl.1 }
    let accessStep : Except PyErr (ParsedSegDef × RecordParser) :=
      if sub.bytes_remaining ≥ 1 then
        if omf.variant.segdef_has_access_byte then
          match (sub.read_byte.1, sub.read_byte.2) with
          | (none, sub) => .ok ({ result with
              warnings := result.warnings ++ ["Truncated SEGDEF access byte"] }, sub)
          | (some access_byte, sub) =>
            match SegAccess.lookupInt (access_byte &&& 0x03) with
            | none => .error .valueError
            | some access =>
              .ok ({ result with access_byte := some access_byte,
                                 access := some access }, sub)
        else .ok (result, sub)
      else .ok (result, sub)
    match accessStep with
    | .error e => (omf, .error e)
    | .ok (result, _) =>
      let raw_name := if seg_name_idx < omf.lnames.length then
          omf.lnames.getD seg_name_idx ""
        else "Seg#" ++ toString omf.segdefs.length
      ({ omf with segdefs := omf.segdefs ++ [raw_name] }, .ok (some result))

/-- `handle_segdef` (records/segdef.py): SEGDEF (98H) and SEGDEF32 (99H).
After reading the ACBP byte the handler computes the alignment: for align
value 6 it consults `omf.variant.omf_variant` (raising `AttributeError`,
since `Variant` has no such attribute), and otherwise calls
`SegAlignment(align_val)` (raising `ValueError`, an int lookup on a
`StrEnum`).  The construction of `ParsedSegDef` would likewise evaluate
`SegCombine(combine_val)`.  Consequently no SEGDEF record ever reaches the
length decode. -/
def handle_segdef (omf : OMFState) (record : RecordInfo) :
    OMFState × Except PyErr (Option ParsedSegDef) :=
  let sub := mkParser record.content omf.variant
  let is32 := record.type = RecordType.SEGDEF32
  let rb := sub.read_byte
  match rb.1 with
  | none => (omf, .ok none)
  | some acbp =>
    let sub := rb.2
    let align_val := (acbp >>> 5) &&& 0x07
    let combine_val := (acbp >>> 2) &&& 0x07
    let big := (acbp >>> 1) &&& 0x01
    let use32 := acbp &&& 0x01
    -- `if align_val == 6 and omf.variant.omf_variant == OMFVariant.PHARLAP:`
    -- (the attribute read only happens when align_val == 6, by short-circuit)
    if align_val = 6 then
      match omf.variant.omf_variant_attr with
      | none => (omf, .error .attributeError)
      | some ov =>
        handle_segdef_rest omf sub is32 acbp align_val big use32 .pharlapPage4K .private0
    else
      match SegAlignment.lookupInt align_val with
      | none => (omf, .error .valueError)
      | some alignment =>
        match SegCombine.lookupInt combine_val with
        | none => (omf, .error .valueError)
        | some combine =>
          handle_segdef_rest omf sub is32 acbp align_val big use32 alignment combine

/-! ## `file.py` — Phase 2 dispatch -/

/-- The handlers of the `@omf_record` registry embedded in this file (the
full registry covers ~50 record types; the claims only exercise these).  None
of the embedded handlers declares required features, so the feature-based
priority selection of `get_record_handler` degenerates to a type lookup. -/
inductive RecHandler where
  | theadr | extdef | cextdef | comdef | segdef | lidata
  deriving DecidableEq, Repr

/-- `get_record_handler` (records/__init__.py), restricted to the embedded
handler set. -/
def get_record_handler (rec_type : Nat) (features : List String) :
    Option RecHandler :=
  if rec_type = RecordType.THEADR ∨ rec_type = RecordType.LHEADR then some .theadr
  else if rec_type = RecordType.EXTDEF ∨ rec_type = RecordType.LEXTDEF ∨
          rec_type = RecordType.LEXTDEF2 then some .extdef
  else if rec_type = RecordType.CEXTDEF then some .cextdef
  else if rec_type = RecordType.COMDEF ∨ rec_type = RecordType.LCOMDEF then some .comdef
  else if rec_type = RecordType.SEGDEF ∨ rec_type = RecordType.SEGDEF32 then some .segdef
  else if rec_type = RecordType.LIDATA ∨ rec_type = RecordType.LIDATA32 then some .lidata
  else none

/-- Run one embedded handler, reporting its state update and exception
outcome (handlers that cannot raise always return `.ok`). -/
def run_record_handler (h : RecHandler) (st : OMFState) (record : RecordInfo) :
    OMFState × Except PyErr Unit :=
  match h with
  | .theadr => ((handle_theadr st record).1, .ok ())
  | .extdef => ((handle_extdef st record).1, .ok ())
  | .cextdef => ((handle_cextdef st record).1, .ok ())
  | .comdef => handle_comdef st record
  | .segdef =>
    let res := handle_segdef st record
    (res.1, res.2.map fun _ => ())
  | .lidata => ((handle_lidata st record).1, .ok ())

/-- `OMFFile._parse_record` (file.py lines 93-113): look up the handler for
the record type and run it inside a `try`/`except` that converts any raised
exception into an `errors` entry; records without a handler get a warning.
Nothing here consults `record.module_variant` or updates `self.variant` —
the active variant is whatever `scan()` left in the state.  (Printing is
I/O and is not modelled.) -/
def OMFFile.parse_record (st : OMFState) (record : RecordInfo) : OMFState :=
  match get_record_handler record.type st.features with
  | some h =>
    match run_record_handler h st record with
    | (st', .ok _) => st'
    | (st', .error e) =>
      let msg := match e with
        | .attributeError => "  [!] Error parsing record: AttributeError"
        | .valueError => "  [!] Error parsing record: ValueError"
        | .validationError => "  [!] Error parsing record: ValidationError"
      { st' with errors := st'.errors ++ [msg] }
  | none =>
    { st with warnings := st.warnings ++
        ["  [?] No handler for record type 0x" ++ hexByte record.type] }

/-- `OMFFile.parse` (file.py lines 59-62): Phase 2 replays every scanned
record through `_parse_record`. -/
def OMFFile.parse (st : OMFState) (records : List RecordInfo) : OMFState :=
  records.foldl OMFFile.parse_record st

/-! ## `detect.py` — format detection -/

/-- `_VALID_RECORD_TYPES` (detect.py): even obsolete Intel types 0x6E-0x7E,
the standard range 0x80-0xCE, and the library markers. -/
def validRecordType (t : Nat) : Bool :=
  (0x6E ≤ t ∧ t ≤ 0x7E ∧ t % 2 = 0) ∨ (0x80 ≤ t ∧ t ≤ 0xCE) ∨
  t = 0xF0 ∨ t = 0xF1 ∨ t = 0xF2

/-- The `while pos < len(data) and data[pos] == 0x00: pos += 1` padding skip
of `_validate_record_chain`. -/
def skipZeros (data : List Nat) (pos : Nat) : Nat :=
  pos + ((data.drop pos).takeWhile (fun b => b = 0)).length

/-- The `for i in range(count)` loop of `_validate_record_chain`.  `started`
stands for `i > 0`: whether at least one record has been validated. -/
def chainLoop (data : List Nat) : Nat → Nat → Bool → Bool → Bool × Nat
  | 0, pos, _, _ => (true, pos)
  | rem + 1, pos, is_library, started =>
    let pos := if is_library then skipZeros data pos else pos
    if pos + 3 > data.length then (started, pos)
    else
      let rec_type := data.getD pos 0
      if ¬validRecordType rec_type then (started, pos)
      else
        let rec_len := data.getD (pos + 1) 0 + 256 * data.getD (pos + 2) 0
        if rec_len = 0 ∨ pos + 3 + rec_len > data.length then (started, pos)
        else
          let checksumFails :=
            if rec_type ≠ RecordType.LIBHDR ∧ rec_type ≠ RecordType.LIBEND then
              let record := (data.drop pos).take (3 + rec_len)
              let checksum := record.getLast?.getD 0
              checksum ≠ 0 ∧ record.sum % 256 ≠ 0
            else false
          if checksumFails then (started, pos)
          else if rec_type = RecordType.MODEND ∨ rec_type = RecordType.MODEND32 ∨
                  rec_type = RecordType.LIBEND then
            (true, pos + 3 + rec_len)
          else chainLoop data rem (pos + 3 + rec_len) is_library true

/-- `_validate_record_chain(data, offset, count, is_library)`. -/
def validate_record_chain (data : List Nat) (offset : Nat) (count : Nat)
    (is_library : Bool) : Bool × Nat :=
  chainLoop data count offset is_library false

/-- `detect_omf` (detect.py lines 89-145), with confidences scaled by 100
(see the header comment on float faithfulness).  Returns
`(is_omf, confidence, description)`. -/
def detect_omf (data : List Nat) (check_depth : Nat := 3) : Bool × Nat × String :=
  if data.length < 4 then (false, 0, "File too small")
  else
    let first_byte := data.getD 0 0
    let isTheadr := first_byte = RecordType.THEADR
    let isLheadr := first_byte = RecordType.LHEADR
    let isLibhdr := first_byte = RecordType.LIBHDR
    if ¬(isTheadr ∨ isLheadr ∨ isLibhdr) then
      (false, 0, "Invalid header byte: 0x" ++ hexByte first_byte)
    else
      let header_type := if isTheadr then "THEADR" else if isLheadr then "LHEADR" else "LIBHDR"
      let rec_len := data.getD 1 0 + 256 * data.getD 2 0
      if rec_len = 0 ∨ data.length < 3 + rec_len then
        (false, 10, "Invalid record length")
      else
        let confidence := 30 + 10
        let content := (data.drop 3).take rec_len
        let confidence :=
          if (isTheadr ∨ isLheadr) ∧ 2 ≤ content.length then
            let str_len := content.getD 0 0
            if str_len = rec_len - 2 then
              let name_bytes := (content.drop 1).take str_len
              if name_bytes.all (fun b => 32 ≤ b ∧ b < 127) then
                confidence + 15 + 15
              else confidence + 15
            else confidence
          else confidence
        let full_record := data.take (3 + rec_len)
        let checksum := full_record.getLast?.getD 0
        let confidence :=
          if checksum = 0 ∨ full_record.sum % 256 = 0 then confidence + 10
          else confidence
        let confidence :=
          if (validate_record_chain data 0 check_depth isLibhdr).1 then confidence + 10
          else confidence
        let confidence := min 100 confidence
        if 50 ≤ confidence then
          (true, confidence, "OMF " ++ header_type ++ " detected")
        else
          (false, confidence,
           "Unlikely OMF (confidence: " ++ toString confidence ++ "%)")

/-! ## Claim-side definitions

These definitions follow the wording of the specification rather than the
source; the theorems below compare them with the source embeddings. -/

mutual

/-- Spec-side LIDATA expanded size, following the claim's wording: the
expanded size of a block is its repeat count times (the sum of the nested
blocks' expanded sizes if the block has nested blocks, else the number of
content bytes). -/
def specExpandedSize : LIDataBlock → Nat
  | .mk rc _ content nested _ =>
    if nested.isEmpty then
      rc * (match content with
            | some c => c.length
            | none => 0)
    else rc * specExpandedSizeList nested

/-- Sum of spec-side expanded sizes over a block list. -/
def specExpandedSizeList : List LIDataBlock → Nat
  | [] => 0
  | b :: bs => specExpandedSize b + specExpandedSizeList bs

end

mutual

/-- Shape invariant of parser-produced LIDATA blocks: a block with a zero
block count never has nested blocks, and one with a nonzero block count never
carries inline content.  (Both facts hold by construction in
`parse_data_block`.) -/
def wfBlock : LIDataBlock → Bool
  | .mk _ bc content nested _ =>
    (if bc = 0 then nested.isEmpty else content.isNone) && wfBlockList nested

/-- `wfBlock` for every member of a list. -/
def wfBlockList : List LIDataBlock → Bool
  | [] => true
  | b :: bs => wfBlock b && wfBlockList bs

end

/-- The `extdefs` contribution of one record, by record type: names parsed
from EXTDEF/LEXTDEF bodies, or LNAMES strings resolved by CEXTDEF bodies.
(COMDEF contributions are the subject of the C4 divergence.) -/
def extdefRecordContribution (variant : Variant) (lnames : List String)
    (r : RecordInfo) : List String :=
  if r.type = RecordType.EXTDEF ∨ r.type = RecordType.LEXTDEF ∨
     r.type = RecordType.LEXTDEF2 then
    extdefNamesOf variant r.content
  else if r.type = RecordType.CEXTDEF then
    cextdefNamesOf variant lnames r.content
  else []

/-- Spec-side confidence accumulation for `detect_omf`, following the claim:
0.30 base for a valid header byte, +0.10 for a valid record length (scoring
stops there when it is invalid, as the source returns early), +0.15 when the
leading name-length byte of a THEADR/LHEADR equals record length - 2, a
further +0.15 when the name bytes are printable ASCII, +0.10 when the
checksum is 0 or validates, +0.10 when the record chain validates, capped at
1.0; scaled by 100. -/
def specConfidence (data : List Nat) : Nat :=
  if data.length < 4 then 0
  else
    let first_byte := data.getD 0 0
    if ¬(first_byte = RecordType.THEADR ∨ first_byte = RecordType.LHEADR ∨
         first_byte = RecordType.LIBHDR) then 0
    else
      let rec_len := data.getD 1 0 + 256 * data.getD 2 0
      if rec_len = 0 ∨ data.length < 3 + rec_len then 30
      else
        let content := (data.drop 3).take rec_len
        let nameBonus :=
          if (first_byte = RecordType.THEADR ∨ first_byte = RecordType.LHEADR) ∧
             2 ≤ content.length ∧ content.getD 0 0 = rec_len - 2 then
            if ((content.drop 1).take (content.getD 0 0)).all
                (fun b => 32 ≤ b ∧ b < 127) then 30 else 15
          else 0
        let full_record := data.take (3 + rec_len)
        let checksumBonus :=
          if full_record.getLast?.getD 0 = 0 ∨ full_record.sum % 256 = 0 then 10 else 0
        let chainBonus :=
          if (validate_record_chain data 0 3 (first_byte = RecordType.LIBHDR)).1
          then 10 else 0
        min 100 (30 + 10 + nameBonus + checksumBonus + chainBonus)

/-! ## Theorems — Phase 1 scanner -/

theorem Scanner.finalize_module_always_raises (st : ScanState)
    (records : List RecordInfo) (exclude_last : Bool) :
    Scanner.finalize_module st records exclude_last = .error .attributeError := rfl

theorem Scanner.track_module_boundaries_cases (record : RecordInfo)
    (records : List RecordInfo) (st : ScanState) :
    Scanner.track_module_boundaries record records st = .ok (records, st) ∨
    Scanner.track_module_boundaries record records st = .error .attributeError := by
  unfold Scanner.track_module_boundaries
  split
  · exact .inr rfl
  · split
    · exact .inr rfl
    · exact .inl rfl

theorem Scanner.scanLoop_ok_or_raises (data : List Nat) :
    ∀ (fuel : Nat) (records : List RecordInfo) (st : ScanState),
      (∃ rs ss, Scanner.scanLoop data fuel records st = .ok (rs, ss)) ∨
      Scanner.scanLoop data fuel records st = .error .attributeError := by
  intro fuel
  induction fuel with
  | zero => intro records st; exact .inl ⟨records, st, rfl⟩
  | succ n ih =>
    intro records st
    simp only [Scanner.scanLoop]
    split
    · split
      · exact ih _ _
      · cases hr : Scanner.read_record data st with
        | none => simp only [hr]; exact .inl ⟨records, st, rfl⟩
        | some pair =>
          obtain ⟨record, st'⟩ := pair
          simp only [hr]
          rcases Scanner.track_module_boundaries_cases record (records ++ [record])
              (Scanner.detect_features record records.length st') with htr | htr
          · simp only [htr]
            split
            · exact .inl ⟨_, _, rfl⟩
            · exact ih _ _
          · right
            simp only [htr]
    · exact .inl ⟨records, st, rfl⟩

/-- Claim C1 (code_bug evidence): for every non-empty input, `Scanner.scan`
raises `AttributeError` instead of returning — `_finalize_module` (reached at
the latest at the end of the scan loop, scanner.py lines 79-80) reads
`self._module_variant.omf_variant`, and class `Variant` defines no
`omf_variant` attribute.  Hence the scan/parse pipeline never gets to return
a structural-fault message for any non-empty byte slice. -/
theorem c1_scan_always_raises (data : List Nat) (h : data ≠ []) :
    Scanner.scan data = .error .attributeError := by
  unfold Scanner.scan
  rw [if_neg (by simpa using h)]
  rcases Scanner.scanLoop_ok_or_raises data (data.length + 1) []
      { ScanState.init with is_library := data.getD 0 0 = RecordType.LIBHDR }
    with ⟨rs, ss, hok⟩ | herr
  · simp only [hok, Scanner.finalize_module_always_raises]
  · simp only [herr]

theorem c1_scan_always_raises_witness :
    ([0] : List Nat) ≠ [] ∧ Scanner.scan [0] = .error .attributeError :=
  ⟨by decide, c1_scan_always_raises [0] (by decide)⟩

theorem Scanner.read_record_bound {data : List Nat} {st : ScanState}
    {r : RecordInfo} {st' : ScanState}
    (h : Scanner.read_record data st = some (r, st')) :
    r.offset + 3 + r.length ≤ data.length := by
  simp only [Scanner.read_record] at h
  split at h
  · simp at h
  · split at h
    · simp at h
    · rename_i h1 h2
      split at h <;> simp only [Option.some.injEq, Prod.mk.injEq] at h <;>
        obtain ⟨hrec, -⟩ := h <;> subst hrec <;> dsimp only <;> omega

theorem Scanner.track_module_boundaries_ok_eq {record : RecordInfo}
    {records rs : List RecordInfo} {st ss : ScanState}
    (h : Scanner.track_module_boundaries record records st = .ok (rs, ss)) :
    rs = records := by
  rcases Scanner.track_module_boundaries_cases record records st with hc | hc
  · rw [hc] at h
    simp only [Except.ok.injEq, Prod.mk.injEq] at h
    exact h.1.symm
  · rw [hc] at h
    simp at h

theorem Scanner.scanLoop_records_bound (data : List Nat) :
    ∀ (fuel : Nat) (records : List RecordInfo) (st : ScanState)
      (rs : List RecordInfo) (ss : ScanState),
      (∀ r ∈ records, r.offset + 3 + r.length ≤ data.length) →
      Scanner.scanLoop data fuel records st = .ok (rs, ss) →
      ∀ r ∈ rs, r.offset + 3 + r.length ≤ data.length := by
  intro fuel
  induction fuel with
  | zero =>
    intro records st rs ss hinv h
    simp only [Scanner.scanLoop, Except.ok.injEq, Prod.mk.injEq] at h
    obtain ⟨h1, -⟩ := h
    exact h1 ▸ hinv
  | succ n ih =>
    intro records st rs ss hinv h
    simp only [Scanner.scanLoop] at h
    split at h
    · split at h
      · exact ih _ _ _ _ hinv h
      · cases hr : Scanner.read_record data st with
        | none =>
          simp only [hr, Except.ok.injEq, Prod.mk.injEq] at h
          obtain ⟨h1, -⟩ := h
          exact h1 ▸ hinv
        | some pair =>
          obtain ⟨record, st'⟩ := pair
          simp only [hr] at h
          have hmem : ∀ r ∈ records ++ [record], r.offset + 3 + r.length ≤ data.length := by
            intro r hm
            rcases List.mem_append.mp hm with hm | hm
            · exact hinv r hm
            · rcases List.mem_singleton.mp hm with rfl
              exact Scanner.read_record_bound hr
          rcases Scanner.track_module_boundaries_cases record (records ++ [record])
              (Scanner.detect_features record records.length st') with htr | htr
          · simp only [htr] at h
            split at h
            · simp only [Except.ok.injEq, Prod.mk.injEq] at h
              obtain ⟨h1, -⟩ := h
              exact h1 ▸ hmem
            · exact ih _ _ _ _ hmem h
          · simp only [htr] at h
            simp at h
    · simp only [Except.ok.injEq, Prod.mk.injEq] at h
      obtain ⟨h1, -⟩ := h
      exact h1 ▸ hinv

/-- Claim C6: every record cut out by the scanner's `_read_record` satisfies
`offset + 3 + length ≤ file_size` (first conjunct), and the scan loop only
ever returns record lists all of whose members satisfy the bound (second
conjunct).  The third and fourth conjuncts settle the claim's termination
wording on the concrete input `80 FF FF` (a THEADR header whose declared
length 0xFFFF overruns the 3-byte file): the loop does stop at that record
and hands back the records read so far (none) — but `Scanner.scan` itself
then raises `AttributeError` in `_finalize_module` instead of returning
them. -/
theorem c6_record_bound_invariant :
    (∀ (data : List Nat) (st : ScanState) (r : RecordInfo) (st' : ScanState),
      Scanner.read_record data st = some (r, st') →
      r.offset + 3 + r.length ≤ data.length) ∧
    (∀ (data : List Nat) (fuel : Nat) (st : ScanState) (rs : List RecordInfo)
       (ss : ScanState),
      Scanner.scanLoop data fuel [] st = .ok (rs, ss) →
      ∀ r ∈ rs, r.offset + 3 + r.length ≤ data.length) ∧
    Scanner.scanLoop [0x80, 0xFF, 0xFF] 4 []
        { ScanState.init with is_library := false } =
      .ok ([], { ScanState.init with is_library := false }) ∧
    Scanner.scan [0x80, 0xFF, 0xFF] = .error .attributeError := by
  refine ⟨fun data st r st' h => Scanner.read_record_bound h,
          fun data fuel st rs ss h =>
            Scanner.scanLoop_records_bound data fuel [] st rs ss (by simp) h,
          by rfl, by rfl⟩

theorem c6_record_bound_invariant_witness :
    Scanner.read_record [0x88, 0x01, 0x00, 0x00] ScanState.init =
      some ({ type := 0x88, offset := 0, length := 1, content := [],
              checksum := some 0, checksum_valid := some true },
            { ScanState.init with offset := 4 }) ∧
    (0 : Nat) + 3 + 1 ≤ ([0x88, 0x01, 0x00, 0x00] : List Nat).length :=
  ⟨by rfl, c6_record_bound_invariant.1 [0x88, 0x01, 0x00, 0x00] ScanState.init
    { type := 0x88, offset := 0, length := 1, content := [],
      checksum := some 0, checksum_valid := some true }
    { ScanState.init with offset := 4 } (by rfl)⟩

theorem byte_lt_256_of_getD {data : List Nat} (hbytes : ByteSeq data)
    {i : Nat} (hi : i < data.length) : data.getD i 0 < 256 := by
  have hmem : data.getD i 0 ∈ data := by
    rw [List.getD_eq_getElem data 0 hi]
    exact List.getElem_mem hi
  exact hbytes _ hmem

/-- Claim C5: for every record cut out by `_read_record` other than the
library header/end, the stored checksum-valid flag is true exactly when the
checksum byte is 0 or the 8-bit sum of the type byte, both length bytes, the
content bytes and the checksum byte vanishes mod 256. -/
theorem c5_checksum_valid_iff (data : List Nat) (st : ScanState)
    (r : RecordInfo) (st' : ScanState)
    (hbytes : ByteSeq data)
    (h : Scanner.read_record data st = some (r, st'))
    (hF0 : r.type ≠ RecordType.LIBHDR) (hF1 : r.type ≠ RecordType.LIBEND) :
    (r.checksum_valid = some true ↔
      (r.checksum = some 0 ∨
       (r.type + data.getD (r.offset + 1) 0 + data.getD (r.offset + 2) 0 +
        r.content.sum + r.checksum.getD 0) % 256 = 0)) := by
  simp only [Scanner.read_record] at h
  split at h
  · simp at h
  · split at h
    · simp at h
    · rename_i hlen hfit
      split at h
      · rename_i hlib
        simp only [Option.some.injEq, Prod.mk.injEq] at h
        obtain ⟨hA, -⟩ := h
        subst hA
        dsimp only at hF0 hF1
        rcases hlib with hl | hl
        · exact absurd hl hF0
        · exact absurd hl hF1
      · rename_i hlib
        simp only [Option.some.injEq, Prod.mk.injEq] at h
        obtain ⟨hA, -⟩ := h
        subst hA
        dsimp only
        have hb1 : data.getD (st.offset + 1) 0 < 256 :=
          byte_lt_256_of_getD hbytes (by omega)
        rcases List.eq_nil_or_concat
            ((data.drop (st.offset + 3)).take
              (data.getD (st.offset + 1) 0 + 256 * data.getD (st.offset + 2) 0))
          with hnil | ⟨L, b, hcons⟩
        · rw [hnil]
          simp [Scanner.validate_checksum]
        · rw [hcons]
          simp only [List.getLast?_concat, List.dropLast_concat,
            Option.getD_some, List.concat_eq_append,
            Scanner.validate_checksum]
          have hmod : (data.getD (st.offset + 1) 0 +
              256 * data.getD (st.offset + 2) 0) % 256 =
              data.getD (st.offset + 1) 0 := by omega
          have hdiv : (data.getD (st.offset + 1) 0 +
              256 * data.getD (st.offset + 2) 0) / 256 =
              data.getD (st.offset + 2) 0 := by omega
          by_cases hb : b = 0
          · subst hb
            simp
          · rw [if_neg hb]
            simp only [Option.some.injEq, decide_eq_true_eq, Option.getD_some]
            constructor
            · intro hsum
              refine .inr ?_
              rw [List.sum_cons, List.sum_cons, List.sum_cons,
                List.sum_append, List.sum_cons, List.sum_nil] at hsum
              rw [hmod, hdiv] at hsum
              omega
            · rintro (hc | hsum)
              · exact absurd (by simpa using hc) hb
              · rw [List.sum_cons, List.sum_cons, List.sum_cons,
                  List.sum_append, List.sum_cons, List.sum_nil]
                rw [hmod, hdiv]
                omega

theorem c5_checksum_valid_iff_witness :
    ByteSeq [0x88, 0x02, 0x00, 0x01, 0x75] ∧
    Scanner.read_record [0x88, 0x02, 0x00, 0x01, 0x75] ScanState.init =
      some ({ type := 0x88, offset := 0, length := 2, content := [0x01],
              checksum := some 0x75, checksum_valid := some true },
            { ScanState.init with offset := 5 }) ∧
    (({ type := 0x88, offset := 0, length := 2, content := [0x01],
        checksum := some 0x75, checksum_valid := some true,
        module_variant := none } : RecordInfo).checksum_valid = some true ↔
     (({ type := 0x88, offset := 0, length := 2, content := [0x01],
         checksum := some 0x75, checksum_valid := some true,
         module_variant := none } : RecordInfo).checksum = some 0 ∨
      (({ type := 0x88, offset := 0, length := 2, content := [0x01],
          checksum := some 0x75, checksum_valid := some true,
          module_variant := none } : RecordInfo).type +
       ([0x88, 0x02, 0x00, 0x01, 0x75] : List Nat).getD
         (({ type := 0x88, offset := 0, length := 2, content := [0x01],
             checksum := some 0x75, checksum_valid := some true,
             module_variant := none } : RecordInfo).offset + 1) 0 +
       ([0x88, 0x02, 0x00, 0x01, 0x75] : List Nat).getD
         (({ type := 0x88, offset := 0, length := 2, content := [0x01],
             checksum := some 0x75, checksum_valid := some true,
             module_variant := none } : RecordInfo).offset + 2) 0 +
       ({ type := 0x88, offset := 0, length := 2, content := [0x01],
          checksum := some 0x75, checksum_valid := some true,
          module_variant := none } : RecordInfo).content.sum +
       ({ type := 0x88, offset := 0, length := 2, content := [0x01],
          checksum := some 0x75, checksum_valid := some true,
          module_variant := none } : RecordInfo).checksum.getD 0) % 256 = 0)) :=
  ⟨by decide, by rfl,
   c5_checksum_valid_iff [0x88, 0x02, 0x00, 0x01, 0x75] ScanState.init
     { type := 0x88, offset := 0, length := 2, content := [0x01],
       checksum := some 0x75, checksum_valid := some true,
       module_variant := none }
     { ScanState.init with offset := 5 } (by decide) (by rfl)
     (by decide) (by decide)⟩

/-- Claim C10: a scanned non-library record whose 16-bit length field is 0
gets checksum 0 (treated as the explicit skip value), a true checksum-valid
flag, and an empty content slice — no error is reported. -/
theorem c10_zero_length_record (data : List Nat) (st : ScanState)
    (r : RecordInfo) (st' : ScanState)
    (h : Scanner.read_record data st = some (r, st'))
    (hzero : r.length = 0)
    (hF0 : r.type ≠ RecordType.LIBHDR) (hF1 : r.type ≠ RecordType.LIBEND) :
    r.checksum = some 0 ∧ r.checksum_valid = some true ∧ r.content = [] := by
  simp only [Scanner.read_record] at h
  split at h
  · simp at h
  · split at h
    · simp at h
    · split at h
      · rename_i hlib
        simp only [Option.some.injEq, Prod.mk.injEq] at h
        obtain ⟨hA, -⟩ := h
        subst hA
        dsimp only at hF0 hF1
        rcases hlib with hl | hl
        · exact absurd hl hF0
        · exact absurd hl hF1
      · simp only [Option.some.injEq, Prod.mk.injEq] at h
        obtain ⟨hA, -⟩ := h
        subst hA
        dsimp only at hzero ⊢
        rw [hzero]
        simp [Scanner.validate_checksum]

theorem c10_zero_length_record_witness :
    Scanner.read_record [0x88, 0x00, 0x00] ScanState.init =
      some ({ type := 0x88, offset := 0, length := 0, content := [],
              checksum := some 0, checksum_valid := some true },
            { ScanState.init with offset := 3 }) ∧
    (({ type := 0x88, offset := 0, length := 0, content := [],
        checksum := some 0, checksum_valid := some true,
        module_variant := none } : RecordInfo).checksum = some 0 ∧
     ({ type := 0x88, offset := 0, length := 0, content := [],
        checksum := some 0, checksum_valid := some true,
        module_variant := none } : RecordInfo).checksum_valid = some true ∧
     ({ type := 0x88, offset := 0, length := 0, content := [],
        checksum := some 0, checksum_valid := some true,
        module_variant := none } : RecordInfo).content = []) :=
  ⟨by rfl,
   c10_zero_length_record [0x88, 0x00, 0x00] ScanState.init
     { type := 0x88, offset := 0, length := 0, content := [],
       checksum := some 0, checksum_valid := some true,
       module_variant := none }
     { ScanState.init with offset := 3 } (by rfl) (by rfl)
     (by decide) (by decide)⟩

/-! ## Theorems — Phase 2 handlers and dispatch -/

theorem handle_theadr_state (st : OMFState) (record : RecordInfo) :
    (handle_theadr st record).1 =
      { st with lnames := ["<null>"], segdefs := ["<null>"], grpdefs := ["<null>"],
                extdefs := ["<null>"], typdefs := ["<null>"] } := rfl

theorem extdefLoop_extdefs_eq :
    ∀ (fuel : Nat) (p : RecordParser) (extdefs : List String)
      (entries : List ExtDefEntry),
      (extdefLoop fuel p extdefs entries).1 = extdefs ++ extdefNamesAux fuel p := by
  intro fuel
  induction fuel with
  | zero => intro p extdefs entries; simp [extdefLoop, extdefNamesAux]
  | succ n ih =>
    intro p extdefs entries
    simp only [extdefLoop, extdefNamesAux]
    split
    · rcases hpn : p.parse_name with ⟨name, p1⟩
      rcases hpi : p1.parse_index with ⟨ti, p2⟩
      simp only [hpn, hpi, ih]
      simp
    · simp

theorem cextdefLoop_extdefs_eq (lnames : List String) :
    ∀ (fuel : Nat) (p : RecordParser) (extdefs : List String)
      (entries : List CExtDefEntry) (omf : OMFState),
      (cextdefLoop lnames fuel p extdefs entries omf).1 =
        extdefs ++ cextdefNamesAux lnames fuel p := by
  intro fuel
  induction fuel with
  | zero => intro p extdefs entries omf; simp [cextdefLoop, cextdefNamesAux]
  | succ n ih =>
    intro p extdefs entries omf
    simp only [cextdefLoop, cextdefNamesAux]
    split
    · rcases hpn : p.parse_index with ⟨name_idx, p1⟩
      rcases hpi : p1.parse_index with ⟨ti, p2⟩
      simp only [hpn, hpi, ih]
      simp
    · simp

theorem handle_extdef_state (st : OMFState) (record : RecordInfo) :
    (handle_extdef st record).1 =
      { st with extdefs := st.extdefs ++ extdefNamesOf st.variant record.content } := by
  have h0 : (handle_extdef st record).1 =
      { st with extdefs :=
          (extdefLoop ((mkParser record.content st.variant).bytes_remaining + 1)
            (mkParser record.content st.variant) st.extdefs []).1 } := rfl
  rw [h0, extdefLoop_extdefs_eq]
  rfl

theorem handle_cextdef_state (st : OMFState) (record : RecordInfo) :
    (handle_cextdef st record).1 =
      { st with extdefs := st.extdefs ++
          cextdefNamesOf st.variant st.lnames record.content } := by
  have h0 : (handle_cextdef st record).1 =
      { st with extdefs :=
          (cextdefLoop st.lnames ((mkParser record.content st.variant).bytes_remaining + 1)
            (mkParser record.content st.variant) st.extdefs [] st).1 } := rfl
  rw [h0, cextdefLoop_extdefs_eq]
  rfl

theorem handle_comdef_extdefs_variant (st : OMFState) (record : RecordInfo) :
    ((handle_comdef st record).1).variant = st.variant := rfl

theorem handle_segdef_variant (st : OMFState) (record : RecordInfo) :
    ((handle_segdef st record).1).variant = st.variant := by
  simp only [handle_segdef]
  cases hrb : (mkParser record.content st.variant).read_byte.1 with
  | none => simp only [hrb]
  | some acbp =>
    simp only [hrb]
    split
    · rfl
    · rfl

theorem handle_lidata_variant (st : OMFState) (record : RecordInfo) :
    ((handle_lidata st record).1).variant = st.variant := rfl

theorem run_record_handler_variant (h : RecHandler) (st : OMFState)
    (record : RecordInfo) :
    ((run_record_handler h st record).1).variant = st.variant := by
  cases h with
  | theadr => simp only [run_record_handler]; rw [handle_theadr_state]
  | extdef => simp only [run_record_handler]; rw [handle_extdef_state]
  | cextdef => simp only [run_record_handler]; rw [handle_cextdef_state]
  | comdef => simp only [run_record_handler]; exact handle_comdef_extdefs_variant ..
  | segdef =>
    simp only [run_record_handler]
    rcases hs : handle_segdef st record with ⟨st', out⟩
    have := handle_segdef_variant st record
    rw [hs] at this
    simpa using this
  | lidata => simp only [run_record_handler]; exact handle_lidata_variant ..

theorem parse_record_variant (st : OMFState) (record : RecordInfo) :
    (OMFFile.parse_record st record).variant = st.variant := by
  unfold OMFFile.parse_record
  cases hh : get_record_handler record.type st.features with
  | none => rfl
  | some h =>
    rcases hr : run_record_handler h st record with ⟨st', out⟩
    have hv := run_record_handler_variant h st record
    rw [hr] at hv
    simp only [hr]
    cases out <;> simpa using hv

/-- Claim C2 (code_bug evidence): the Phase 2 File Context never adopts a
record's scan-assigned module variant.  `OMFFile._parse_record` (and hence
`parse`) leaves `self.variant` untouched for every record — the
`record.module_variant` field is never read in file.py — and the concrete
third conjunct shows a THEADR replay carrying module variant IBM LINK386
being dispatched while the active variant stays TIS Standard. -/
theorem c2_parse_never_adopts_module_variant :
    (∀ (st : OMFState) (record : RecordInfo),
      (OMFFile.parse_record st record).variant = st.variant) ∧
    (∀ (st : OMFState) (records : List RecordInfo),
      (OMFFile.parse st records).variant = st.variant) ∧
    (OMFFile.parse_record { OMFState.init with is_library := true }
        { type := 0x80, offset := 0, length := 8,
          content := [0x06, 0x4D, 0x4F, 0x44, 0x32, 0x2E, 0x43],
          checksum := some 0, checksum_valid := some true,
          module_variant := some Variant.ibmLink386 }).variant =
      Variant.tisStandard := by
  refine ⟨parse_record_variant, ?_, ?_⟩
  · intro st records
    induction records generalizing st with
    | nil => rfl
    | cons r rest ih =>
      show (OMFFile.parse (OMFFile.parse_record st r) rest).variant = st.variant
      rw [ih, parse_record_variant]
  · rfl

/-- Claim C3 counterexample: a THEADR record parsed in library mode does not
reset `last_data_record` — the value left by an earlier LEDATA survives,
while the claim says it is reset to its initial sentinel (`None`). -/
theorem c3_theadr_last_data_record_counterexample :
    (OMFFile.parse_record
        { OMFState.init with is_library := true,
                             last_data_record := some ("LEDATA", 1, 0) }
        { type := 0x80, offset := 0, length := 8,
          content := [0x06, 0x4D, 0x4F, 0x44, 0x31, 0x2E, 0x43],
          checksum := some 0, checksum_valid := some true,
          module_variant := none }).last_data_record = some ("LEDATA", 1, 0) := rfl

/-- Claim C3, amended: every THEADR/LHEADR record (in library mode or not)
resets the five per-module symbol tables to their `["<null>"]` sentinel state
before any subsequent record is decoded, and leaves every other File Context
field — in particular `last_data_record` — unchanged. -/
theorem c3_theadr_resets_symbol_tables (st : OMFState) (record : RecordInfo)
    (h : record.type = RecordType.THEADR ∨ record.type = RecordType.LHEADR) :
    OMFFile.parse_record st record =
      { st with lnames := ["<null>"], segdefs := ["<null>"], grpdefs := ["<null>"],
                extdefs := ["<null>"], typdefs := ["<null>"] } := by
  have hh : get_record_handler record.type st.features = some .theadr := by
    unfold get_record_handler
    rw [if_pos h]
  unfold OMFFile.parse_record
  rw [hh]
  exact handle_theadr_state st record

theorem c3_theadr_resets_symbol_tables_witness :
    OMFFile.parse_record
        { OMFState.init with last_data_record := some ("LEDATA", 2, 16),
                             lnames := ["<null>", "CODE"] }
        { type := 0x82, offset := 0, length := 8,
          content := [0x06, 0x4D, 0x4F, 0x44, 0x31, 0x2E, 0x43],
          checksum := some 0, checksum_valid := some true,
          module_variant := none } =
      { { OMFState.init with last_data_record := some ("LEDATA", 2, 16),
                             lnames := ["<null>", "CODE"] } with
        lnames := ["<null>"], segdefs := ["<null>"], grpdefs := ["<null>"],
        extdefs := ["<null>"], typdefs := ["<null>"] } :=
  c3_theadr_resets_symbol_tables
    { OMFState.init with last_data_record := some ("LEDATA", 2, 16),
                         lnames := ["<null>", "CODE"] }
    { type := 0x82, offset := 0, length := 8,
      content := [0x06, 0x4D, 0x4F, 0x44, 0x31, 0x2E, 0x43],
      checksum := some 0, checksum_valid := some true,
      module_variant := none } (by right; rfl)

theorem parse_record_extdef_contribution (st : OMFState) (record : RecordInfo)
    (h : record.type = RecordType.EXTDEF ∨ record.type = RecordType.LEXTDEF ∨
         record.type = RecordType.LEXTDEF2 ∨ record.type = RecordType.CEXTDEF) :
    OMFFile.parse_record st record =
      { st with extdefs := st.extdefs ++
          extdefRecordContribution st.variant st.lnames record } := by
  rcases h with h | h | h | h
  case inr.inr.inr =>
    have hc : extdefRecordContribution st.variant st.lnames record =
        cextdefNamesOf st.variant st.lnames record.content := by
      unfold extdefRecordContribution
      rw [h]
      rfl
    have hh : get_record_handler record.type st.features = some .cextdef := by
      unfold get_record_handler
      rw [h]
      rfl
    unfold OMFFile.parse_record
    simp only [hh, run_record_handler]
    rw [handle_cextdef_state, hc]
  all_goals {
    have hc : extdefRecordContribution st.variant st.lnames record =
        extdefNamesOf st.variant record.content := by
      unfold extdefRecordContribution
      rw [h]
      rfl
    have hh : get_record_handler record.type st.features = some .extdef := by
      unfold get_record_handler
      rw [h]
      rfl
    unfold OMFFile.parse_record
    simp only [hh, run_record_handler]
    rw [handle_extdef_state, hc]
  }

/-- Claim C4 (code_bug evidence): the shared `extdefs` index space works as
claimed for EXTDEF/LEXTDEF/LEXTDEF2/CEXTDEF records — after replaying any
sequence of them the table equals the old table followed by the records'
name contributions in encounter order (first conjunct) — but COMDEF records
break it: a standard TIS FAR communal definition (data type 0x61) falls into
the `ComDefUnknownDefinition` branch (the FAR/NEAR comparisons test an `int`
against `StrEnum` members and are always false) whose constructor call omits
the required `raw_data_type` field, so the handler raises `ValidationError`
and the name "A" is never appended (remaining conjuncts). -/
theorem c4_extdefs_concat_and_comdef_losses :
    (∀ (st : OMFState) (records : List RecordInfo),
      (∀ r ∈ records, r.type = RecordType.EXTDEF ∨ r.type = RecordType.LEXTDEF ∨
         r.type = RecordType.LEXTDEF2 ∨ r.type = RecordType.CEXTDEF) →
      (OMFFile.parse st records).extdefs =
        st.extdefs ++ records.flatMap (extdefRecordContribution st.variant st.lnames)) ∧
    (handle_comdef OMFState.init
        { type := 0xB0, offset := 0, length := 7,
          content := [0x01, 0x41, 0x00, 0x61, 0x02, 0x03],
          checksum := some 0, checksum_valid := some true,
          module_variant := none }).2 = .error .validationError ∧
    (OMFFile.parse_record OMFState.init
        { type := 0xB0, offset := 0, length := 7,
          content := [0x01, 0x41, 0x00, 0x61, 0x02, 0x03],
          checksum := some 0, checksum_valid := some true,
          module_variant := none }).extdefs = ["<null>"] ∧
    (OMFFile.parse_record OMFState.init
        { type := 0xB0, offset := 0, length := 7,
          content := [0x01, 0x41, 0x00, 0x61, 0x02, 0x03],
          checksum := some 0, checksum_valid := some true,
          module_variant := none }).errors =
      ["  [!] Error parsing record: ValidationError"] := by
  refine ⟨?_, by rfl, by rfl, by rfl⟩
  intro st records
  induction records generalizing st with
  | nil => intro _; simp [OMFFile.parse]
  | cons r rest ih =>
    intro hmem
    have hr := hmem r (List.mem_cons_self r rest)
    show (OMFFile.parse (OMFFile.parse_record st r) rest).extdefs = _
    rw [parse_record_extdef_contribution st r hr]
    rw [ih _ (fun x hx => hmem x (List.mem_cons_of_mem _ hx))]
    simp [List.append_assoc]

theorem c4_extdefs_concat_witness :
    (OMFFile.parse OMFState.init
        [{ type := 0x8C, offset := 0, length := 6,
           content := [0x03, 0x46, 0x4F, 0x4F, 0x00],
           checksum := some 0, checksum_valid := some true,
           module_variant := none }]).extdefs =
      ["<null>"] ++
        ([{ type := 0x8C, offset := 0, length := 6,
            content := [0x03, 0x46, 0x4F, 0x4F, 0x00],
            checksum := some 0, checksum_valid := some true,
            module_variant := none }] : List RecordInfo).flatMap
          (extdefRecordContribution Variant.tisStandard ["<null>"]) :=
  c4_extdefs_concat_and_comdef_losses.1 OMFState.init
    [{ type := 0x8C, offset := 0, length := 6,
       content := [0x03, 0x46, 0x4F, 0x4F, 0x00],
       checksum := some 0, checksum_valid := some true,
       module_variant := none }]
    (by intro r hr; rcases List.mem_singleton.mp hr with rfl; left; rfl)

/-! ## Theorems — LIDATA expanded size (C7) -/

mutual

theorem calc_expanded_size_spec :
    ∀ (b : LIDataBlock), wfBlock b = true →
      (calculate_expanded_size b).expanded_size = specExpandedSize b
  | .mk rc bc content nested e, hwf => by
    by_cases hbc : bc = 0
    · subst hbc
      simp [wfBlock, List.isEmpty_iff] at hwf
      obtain ⟨hnil, -⟩ := hwf
      subst hnil
      simp [calculate_expanded_size, specExpandedSize, LIDataBlock.expanded_size]
    · simp only [wfBlock, if_neg hbc, Bool.and_eq_true,
        Option.isNone_iff_eq_none] at hwf
      
      obtain ⟨hcn, hlist⟩ := hwf
      have h1 := calc_expanded_list_spec nested hlist
      subst hcn
      cases nested with
      | nil =>
        simp [calculate_expanded_size, specExpandedSize, hbc, calcExpandedList,
          specExpandedSizeList, LIDataBlock.expanded_size]
      | cons x xs =>
        simp only [calculate_expanded_size, if_neg hbc, LIDataBlock.expanded_size,
          specExpandedSize, List.isEmpty_cons, Bool.false_eq_true, if_false]
        rw [h1]

theorem calc_expanded_list_spec :
    ∀ (bs : List LIDataBlock), wfBlockList bs = true →
      ((calcExpandedList bs).map LIDataBlock.expanded_size).sum = specExpandedSizeList bs
  | [], _ => rfl
  | b :: bs, h => by
    simp only [wfBlockList, Bool.and_eq_true] at h
    obtain ⟨hb, hbs⟩ := h
    simp only [calcExpandedList, List.map_cons, List.sum_cons, specExpandedSizeList]
    rw [calc_expanded_size_spec b hb, calc_expanded_list_spec bs hbs]

end

theorem lidata_parse_wf (is32 : Bool) :
    ∀ (fuel : Nat),
      (∀ (p : RecordParser) (depth : Nat) (tr : Bool) (ws : List String)
         (b : LIDataBlock),
        (parse_data_block is32 fuel p depth tr ws).1 = some b → wfBlock b = true) ∧
      (∀ (count : Nat) (p : RecordParser) (depth : Nat) (tr : Bool)
         (ws : List String),
        wfBlockList (parse_nested_blocks is32 fuel count p depth tr ws).1 = true) := by
  intro fuel
  induction fuel with
  | zero =>
    constructor
    · intro p depth tr ws b hb
      simp [parse_data_block] at hb
    · intro count p depth tr ws
      rfl
  | succ n ihn =>
    obtain ⟨ihP, ihQ⟩ := ihn
    constructor
    · intro p depth tr ws b hb
      simp only [parse_data_block] at hb
      split at hb
      · split at hb <;> simp at hb
      · split at hb
        · rename_i hbc
          split at hb
          · simp only [Option.some.injEq] at hb
            subst hb
            simp [wfBlock, hbc, wfBlockList]
          · split at hb <;>
              (simp only [Option.some.injEq] at hb; subst hb;
               simp [wfBlock, hbc, wfBlockList])
        · rename_i hbc
          simp only [Option.some.injEq] at hb
          subst hb
          simp only [wfBlock, if_neg hbc, Option.isNone_none, Bool.true_and]
          exact ihQ _ _ _ _ _
    · intro count p depth tr ws
      cases count with
      | zero => rfl
      | succ m =>
        simp only [parse_nested_blocks]
        cases hc : (parse_data_block is32 n p (depth + 1) tr ws).1 with
        | some child =>
          simp only [hc, wfBlockList, Bool.and_eq_true]
          exact ⟨ihP _ _ _ _ _ hc, ihQ _ _ _ _ _⟩
        | none =>
          simp only [hc]
          exact ihQ _ _ _ _ _

/-- Claim C7: LIDATA expanded sizes.  First conjunct: on every well-shaped
block (as the parser produces them) `calculate_expanded_size` computes the
claimed value, repeat count times the sum of the nested expanded sizes when
nested blocks are present and repeat count times the content byte count
otherwise.  Second conjunct: `parse_data_block` only produces well-shaped
blocks.  Third conjunct: the claimed example — block (repeat 3, count 2)
containing (repeat 2, content "AB") and (repeat 4, content "C") — yields
`total_expanded_size = 3 * (2 * 2 + 4 * 1) = 24` through `handle_lidata`. -/
theorem c7_lidata_expanded_size :
    (∀ (b : LIDataBlock), wfBlock b = true →
      (calculate_expanded_size b).expanded_size = specExpandedSize b) ∧
    (∀ (is32 : Bool) (fuel : Nat) (p : RecordParser) (depth : Nat) (tr : Bool)
       (ws : List String) (b : LIDataBlock),
      (parse_data_block is32 fuel p depth tr ws).1 = some b → wfBlock b = true) ∧
    (handle_lidata OMFState.init
        { type := 0xA2, offset := 0, length := 21,
          content := [0x01, 0x00, 0x00,
                      0x03, 0x00, 0x02, 0x00,
                      0x02, 0x00, 0x00, 0x00, 0x02, 0x41, 0x42,
                      0x04, 0x00, 0x00, 0x00, 0x01, 0x43],
          checksum := some 0, checksum_valid := some true,
          module_variant := none }).2.total_expanded_size = 24 := by
  refine ⟨calc_expanded_size_spec, ?_, ?_⟩
  · intro is32 fuel p depth tr ws b hb
    exact (lidata_parse_wf is32 fuel).1 p depth tr ws b hb
  · rfl

theorem c7_lidata_expanded_size_witness :
    wfBlock (LIDataBlock.mk 3 2 none
      [LIDataBlock.mk 2 0 (some [0x41, 0x42]) [] 0,
       LIDataBlock.mk 4 0 (some [0x43]) [] 0] 0) = true ∧
    (calculate_expanded_size (LIDataBlock.mk 3 2 none
      [LIDataBlock.mk 2 0 (some [0x41, 0x42]) [] 0,
       LIDataBlock.mk 4 0 (some [0x43]) [] 0] 0)).expanded_size =
      specExpandedSize (LIDataBlock.mk 3 2 none
        [LIDataBlock.mk 2 0 (some [0x41, 0x42]) [] 0,
         LIDataBlock.mk 4 0 (some [0x43]) [] 0] 0) :=
  ⟨rfl, c7_lidata_expanded_size.1 (LIDataBlock.mk 3 2 none
      [LIDataBlock.mk 2 0 (some [0x41, 0x42]) [] 0,
       LIDataBlock.mk 4 0 (some [0x43]) [] 0] 0) rfl⟩

/-! ## Theorems — SEGDEF length decode (C8) -/

/-- Claim C8 (code_bug evidence): the decode rule at records/segdef.py lines
54-63 implements exactly the claimed lengths — Big=1 with a zero length field
gives 2^16 (16-bit) / 2^32 (32-bit), anything else gives the field value
(first three conjuncts) — but the rule is unreachable: for every SEGDEF or
SEGDEF32 record with at least the ACBP byte present, `handle_segdef` raises
before decoding the length (`AttributeError` via the missing
`Variant.omf_variant` when the align field is 6, `ValueError` from the
int-on-`StrEnum` lookup `SegAlignment(align_val)` otherwise).  The final
conjunct evaluates the handler on a concrete Big=1, zero-length SEGDEF, for
which the claim predicts decoded length 65,536 and the code raises
`ValueError`. -/
theorem c8_segdef_length_decode :
    segdefDecodedLength 1 false 0 = 65536 ∧
    segdefDecodedLength 1 true 0 = 4294967296 ∧
    (∀ (big : Nat) (is32 : Bool) (len : Nat),
      ¬(big ≠ 0 ∧ len = 0) → segdefDecodedLength big is32 len = len) ∧
    (∀ (st : OMFState) (record : RecordInfo), record.content ≠ [] →
      (handle_segdef st record).2 = .error .attributeError ∨
      (handle_segdef st record).2 = .error .valueError) ∧
    handle_segdef OMFState.init
        { type := 0x98, offset := 0, length := 7,
          content := [0x62, 0x00, 0x00, 0x01, 0x01, 0x01],
          checksum := some 0, checksum_valid := some true,
          module_variant := none } =
      (OMFState.init, .error .valueError) := by
  refine ⟨rfl, rfl, ?_, ?_, rfl⟩
  · intro big is32 len h
    unfold segdefDecodedLength
    rw [if_neg h]
  · intro st record hne
    have hrb : (mkParser record.content st.variant).read_byte.1 =
        some (record.content.getD 0 0) := by
      unfold mkParser RecordParser.read_byte
      have : 0 < record.content.length := List.length_pos.mpr hne
      simp [this]
    simp only [handle_segdef, hrb]
    split
    · left; rfl
    · right; rfl

theorem c8_segdef_length_decode_witness :
    segdefDecodedLength 1 false 5 = 5 ∧
    (([0xC5, 0x00, 0x00] : List Nat) ≠ []) ∧
    ((handle_segdef OMFState.init
        { type := 0x99, offset := 0, length := 4,
          content := [0xC5, 0x00, 0x00],
          checksum := some 0, checksum_valid := some true,
          module_variant := none }).2 = .error .attributeError ∨
     (handle_segdef OMFState.init
        { type := 0x99, offset := 0, length := 4,
          content := [0xC5, 0x00, 0x00],
          checksum := some 0, checksum_valid := some true,
          module_variant := none }).2 = .error .valueError) :=
  ⟨c8_segdef_length_decode.2.2.1 1 false 5 (by decide), by decide,
   c8_segdef_length_decode.2.2.2.1 OMFState.init
     { type := 0x99, offset := 0, length := 4,
       content := [0xC5, 0x00, 0x00],
       checksum := some 0, checksum_valid := some true,
       module_variant := none } (by decide)⟩

/-! ## Theorems — format detection (C9) -/

set_option maxHeartbeats 2000000 in
/-- Claim C9: `detect_omf` reports OMF exactly when the accumulated
confidence reaches 0.5 — base 0.3 for a THEADR/LHEADR/LIBHDR first byte (any
other first byte fails), +0.1 for a valid record length (scoring stops when
it is invalid), +0.15 for a name-length byte equal to record length - 2,
+0.15 more for printable name bytes, +0.1 for a zero or valid checksum, +0.1
for a validating record chain, capped at 1.0 (`specConfidence`, scaled by
100). -/
theorem c9_detect_omf_iff (data : List Nat) :
    (detect_omf data 3).1 = true ↔ 50 ≤ specConfidence data := by
  simp only [detect_omf, specConfidence]
  by_cases h1 : data.length < 4
  · simp [h1]
  · simp only [if_neg h1]
    by_cases h2 : ¬(data.getD 0 0 = RecordType.THEADR ∨ data.getD 0 0 = RecordType.LHEADR ∨
        data.getD 0 0 = RecordType.LIBHDR)
    · rw [if_pos h2, if_pos h2]
      simp
    · rw [if_neg h2, if_neg h2]
      by_cases h3 : data.getD 1 0 + 256 * data.getD 2 0 = 0 ∨
          data.length < 3 + (data.getD 1 0 + 256 * data.getD 2 0)
      · rw [if_pos h3, if_pos h3]
        simp
      · rw [if_neg h3, if_neg h3]
        set first_b := data.getD 0 0
        set rec_len := data.getD 1 0 + 256 * data.getD 2 0
        set content := (data.drop 3).take rec_len
        set full := data.take (3 + rec_len)
        set nb := ((content.drop 1).take (content.getD 0 0)).all
          (fun b => 32 ≤ b ∧ b < 127)
        set chain := (validate_record_chain data 0 3 (first_b = RecordType.LIBHDR)).1
        clear_value first_b rec_len content full nb chain
        clear h1 h2 h3
        split_ifs <;> simp_all
